import Mathlib

/-!
# Salon customer records: the service layer and its HTTP routes

A shallow embedding of `src/models/customer.js`, `src/services/customerService.js`
(with its data file), `src/services/customerServiceDB.js` (its update over the two
tables, and every method against a client whose queries may throw), `src/db/index.js`
with the start of the two entry points, and the customer routes of `src/server.js` and
`src/functions/api.js`.

Conventions of the embedding.

* JavaScript values that travel in request bodies and customer fields are `JsVal`.
  Arrays hold strings (style tags, service names); nested arrays and objects are
  outside the model.  `num` stands for a finite number (integer-valued in the model,
  with -0 identified with 0); `NaN` and the infinities are values of their own.
* Builtins of the JavaScript runtime whose full behaviour is not code of the
  repository (`String.prototype.toLowerCase`, `Date.prototype.toISOString`, the date
  parser) are the fields of a `JsRuntime`, over which the theorems quantify.
* The object graph is modelled by value.  Every `Customer` in `this.customers` is a
  distinct object (built by `new Customer` in `loadCustomers` or `addCustomer`), so
  mutating the object returned by `find`/`findIndex` is a write at the position of
  the first match.
* `Date.now()` and `new Date()` read a clock; the value read is the explicit
  parameter `now` (milliseconds).
* `saveCustomers` writes a copy of `this.customers` to disk, catches every error
  and never changes `this.customers`; the in-memory list is the state.  The file it
  writes is modelled apart, as the records `JSON.parse` gives back.
-/

namespace SalonApp

/-! ## JavaScript values -/

/-- A JavaScript value as it appears in a JSON request body or a customer field. -/
inductive JsVal where
  | undefined
  | null
  | bool (b : Bool)
  | num (n : Int)
  | nan
  | infinity (negative : Bool)
  | str (s : String)
  | arr (xs : List String)
  deriving DecidableEq, Repr, Inhabited

namespace JsVal

/-- JavaScript truthiness (`if (v)`, `!v`, `v || w`). -/
def truthy : JsVal → Bool
  | undefined => false
  | null => false
  | bool b => b
  | num n => n != 0
  | nan => false
  | infinity _ => true
  | str s => s != ""
  | arr _ => true

/-- The builtin `Array.isArray(v)`. -/
def isArray : JsVal → Bool
  | arr _ => true
  | _ => false

/-- The operator `a === b` where `b` comes from a freshly parsed request: primitives
compare by value, an array is a new object and equals no stored one. -/
def strictEq : JsVal → JsVal → Bool
  | undefined, undefined => true
  | null, null => true
  | bool a, bool b => a == b
  | num a, num b => a == b
  | infinity a, infinity b => a == b
  | str a, str b => a == b
  | _, _ => false

/-- The operator `a || b`. -/
def or (a b : JsVal) : JsVal := if a.truthy then a else b

/-- A parameter declared with a default (`p = d`): the default applies exactly when
the argument is `undefined`. -/
def withDefault (v d : JsVal) : JsVal := if v = undefined then d else v

/-- The value is not `NaN` or an infinity. -/
def finite : JsVal → Bool
  | nan => false
  | infinity _ => false
  | _ => true

/-- The value read after `JSON.parse(JSON.stringify(..))` of an object that holds the
value in a property: `NaN` and the infinities are written as `null`; a key whose value
is `undefined` is left out and reads as `undefined` again. -/
def jsonRoundTrip : JsVal → JsVal
  | nan => null
  | infinity _ => null
  | v => v

end JsVal

/-- A `Date` object: a time value in milliseconds since the epoch, or Invalid Date
(time value `NaN`). -/
inductive JsDate where
  | valid (time : Int)
  | invalid
  deriving DecidableEq, Repr, Inhabited

/-- Every character of the string is an ASCII character. -/
def isAscii (s : String) : Bool :=
  s.data.all (fun c => decide (c.toNat < 128))

/-- The builtins of the JavaScript runtime that the repository calls and does not
define.  `toLowerCase` is `String.prototype.toLowerCase`; on a string of ASCII
characters it maps `A`-`Z` to `a`-`z` and keeps every other character, which is all the
embedding fixes about it.  `toISOString` is `Date.prototype.toISOString` of a valid
date, and `parseDate` is the date a string is parsed to by `new Date(string)`. -/
structure JsRuntime where
  toLowerCase : String → String
  toLowerCase_ascii : ∀ s : String, isAscii s = true →
    (toLowerCase s).data = s.data.map Char.toLower
  toISOString : Int → String
  parseDate : String → JsDate

/-- The largest time value a `Date` holds, in milliseconds. -/
def maxTime : Int := 8640000000000000

/-- The method `Date.prototype.toJSON`, called by `JSON.stringify`: the ISO string of a
valid date, `null` for Invalid Date. -/
def JsRuntime.dateToJSON (rt : JsRuntime) : JsDate → JsVal
  | .valid time => .str (rt.toISOString time)
  | .invalid => .null

/-- The constructor `new Date(value)`: a string is parsed (an array is joined to a
string first), `null` and booleans are converted to the numbers 0 and 1, a number in
range is the time value, and `undefined`, `NaN`, the infinities and numbers out of range
give Invalid Date. -/
def JsRuntime.newDate (rt : JsRuntime) : JsVal → JsDate
  | .undefined => .invalid
  | .null => .valid 0
  | .bool b => .valid (if b then 1 else 0)
  | .num n => if -maxTime ≤ n ∧ n ≤ maxTime then .valid n else .invalid
  | .nan => .invalid
  | .infinity _ => .invalid
  | .str s => rt.parseDate s
  | .arr xs => rt.parseDate (",".intercalate xs)

/-! ## `src/models/customer.js` -/

/-- The class `ServiceVisit`; `date` is a `Date` object. -/
structure ServiceVisit where
  date : JsDate
  servicesTaken : JsVal
  notes : JsVal
  deriving DecidableEq, Repr

/-- The constructor `new ServiceVisit(date, servicesTaken = [], notes = '')`. -/
def ServiceVisit.new (date : JsDate) (servicesTaken notes : JsVal) : ServiceVisit :=
  { date := date
    servicesTaken := servicesTaken.withDefault (.arr [])
    notes := notes.withDefault (.str "") }

/-- The class `Customer`. -/
structure Customer where
  id : String
  name : JsVal
  phoneNumber : JsVal
  preferredStyles : JsVal
  serviceHistory : List ServiceVisit
  notes : JsVal
  deriving DecidableEq, Repr

/-- The constructor `new Customer(id, name, phoneNumber, preferredStyles = [], serviceHistory, notes = '')`. -/
def Customer.new (id : String) (name phoneNumber preferredStyles : JsVal)
    (serviceHistory : List ServiceVisit) (notes : JsVal) : Customer :=
  { id := id
    name := name
    phoneNumber := phoneNumber
    preferredStyles := preferredStyles.withDefault (.arr [])
    serviceHistory := serviceHistory
    notes := notes.withDefault (.str "") }

/-- The method `Customer.addServiceVisit`: `this.serviceHistory.push(serviceVisit)`. -/
def Customer.addServiceVisit (this : Customer) (serviceVisit : ServiceVisit) : Customer :=
  { this with serviceHistory := this.serviceHistory ++ [serviceVisit] }

/-! ## `src/services/customerService.js` -/

/-- The file-backed service: its state is the list `this.customers`. -/
structure CustomerService where
  customers : List Customer
  deriving DecidableEq, Repr

/-- The body of a `PUT` request, read as `updatedInfo`: the four fields the service
looks at, and two more that a caller may send and the service never reads. -/
structure UpdatedInfo where
  name : JsVal := .undefined
  phoneNumber : JsVal := .undefined
  preferredStyles : JsVal := .undefined
  notes : JsVal := .undefined
  id : JsVal := .undefined
  serviceHistory : JsVal := .undefined
  deriving DecidableEq, Repr

namespace CustomerService

/-- The store of a service constructed over a missing or empty data file. -/
def empty : CustomerService := { customers := [] }

/-- The method `getAllCustomers`: `return this.customers`. -/
def getAllCustomers (this : CustomerService) : List Customer :=
  this.customers

/-- The method `getCustomerById`: the first customer with `customer.id === id`, or null. -/
def getCustomerById (this : CustomerService) (id : String) : Option Customer :=
  this.customers.find? (fun customer => customer.id == id)

/-- The method `getCustomerByPhone`: the first customer with that phone number, or null. -/
def getCustomerByPhone (this : CustomerService) (phoneNumber : JsVal) : Option Customer :=
  this.customers.find? (fun customer => customer.phoneNumber.strictEq phoneNumber)

/-- The method `addCustomer(name, phoneNumber, preferredStyles = [], notes = '')`:
the id is `Date.now().toString()`, the new customer is pushed at the end. -/
def addCustomer (this : CustomerService) (now : Nat)
    (name phoneNumber preferredStyles notes : JsVal) : Customer × CustomerService :=
  let preferredStyles := preferredStyles.withDefault (.arr [])
  let notes := notes.withDefault (.str "")
  let id := toString now
  let newCustomer := Customer.new id name phoneNumber preferredStyles [] notes
  (newCustomer, { customers := this.customers ++ [newCustomer] })

/-- The four conditional assignments of `updateCustomer`
(`if (updatedInfo.f) customer.f = updatedInfo.f`). -/
def assignFields (customer : Customer) (updatedInfo : UpdatedInfo) : Customer :=
  let customer :=
    if updatedInfo.name.truthy then { customer with name := updatedInfo.name } else customer
  let customer :=
    if updatedInfo.phoneNumber.truthy then
      { customer with phoneNumber := updatedInfo.phoneNumber } else customer
  let customer :=
    if updatedInfo.preferredStyles.truthy then
      { customer with preferredStyles := updatedInfo.preferredStyles } else customer
  let customer :=
    if updatedInfo.notes.truthy then { customer with notes := updatedInfo.notes } else customer
  customer

/-- The method `updateCustomer`: `none` is the index -1 of `findIndex`; otherwise the
customer at that index is mutated and returned. -/
def updateCustomer (this : CustomerService) (id : String) (updatedInfo : UpdatedInfo) :
    Option Customer × CustomerService :=
  match this.customers.findIdx? (fun customer => customer.id == id) with
  | none => (none, this)
  | some customerIndex =>
    match this.customers[customerIndex]? with
    | none => (none, this)
    | some customer =>
      let customer := assignFields customer updatedInfo
      (some customer, { customers := this.customers.set customerIndex customer })

/-- Mutation of the object that `find` returned: a write at the first match. -/
def mutateFound (p : Customer → Bool) (f : Customer → Customer) :
    List Customer → List Customer
  | [] => []
  | c :: cs => if p c then f c :: cs else c :: mutateFound p f cs

/-- The method `addServiceVisit(customerId, servicesTaken, notes = '')`. -/
def addServiceVisit (this : CustomerService) (now : Nat) (customerId : String)
    (servicesTaken notes : JsVal) : Option ServiceVisit × CustomerService :=
  let notes := notes.withDefault (.str "")
  match this.getCustomerById customerId with
  | none => (none, this)
  | some _ =>
    let visit := ServiceVisit.new (.valid now) servicesTaken notes
    (some visit,
      { customers :=
          mutateFound (fun customer => customer.id == customerId)
            (fun customer => customer.addServiceVisit visit) this.customers })

/-- The method `deleteCustomer`: filter out every customer with the id; true when the
length changed. -/
def deleteCustomer (this : CustomerService) (id : String) : Bool × CustomerService :=
  let initialLength := this.customers.length
  let customers := this.customers.filter (fun customer => customer.id != id)
  if customers.length != initialLength then (true, { customers := customers })
  else (false, { customers := customers })

end CustomerService

/-! ## Sequences of service calls -/

/-- One mutating call on the file-backed service, with the clock value it reads. -/
inductive Op where
  | addCustomer (now : Nat) (name phoneNumber preferredStyles notes : JsVal)
  | updateCustomer (id : String) (updatedInfo : UpdatedInfo)
  | addServiceVisit (now : Nat) (customerId : String) (servicesTaken notes : JsVal)
  | deleteCustomer (id : String)
  deriving DecidableEq, Repr

/-- The store after one call. -/
def Op.apply (this : CustomerService) : Op → CustomerService
  | .addCustomer now name phoneNumber preferredStyles notes =>
    (this.addCustomer now name phoneNumber preferredStyles notes).2
  | .updateCustomer id updatedInfo => (this.updateCustomer id updatedInfo).2
  | .addServiceVisit now customerId servicesTaken notes =>
    (this.addServiceVisit now customerId servicesTaken notes).2
  | .deleteCustomer id => (this.deleteCustomer id).2

/-- The store after a sequence of calls, first call first. -/
def runOps (this : CustomerService) (ops : List Op) : CustomerService :=
  ops.foldl Op.apply this

/-- The clock values read by the `addCustomer` calls of a sequence, in order. -/
def addCustomerClock : List Op → List Nat
  | [] => []
  | .addCustomer now _ _ _ _ :: ops => now :: addCustomerClock ops
  | _ :: ops => addCustomerClock ops

/-- No two customers of the list have the same id. -/
def idsUnique (customers : List Customer) : Prop :=
  (customers.map (fun c => c.id)).Nodup

instance (customers : List Customer) : Decidable (idsUnique customers) := by
  unfold idsUnique; infer_instance

/-- No two customers of the list have the same phone number. -/
def phonesUnique (customers : List Customer) : Prop :=
  (customers.map (fun c => c.phoneNumber)).Nodup

instance (customers : List Customer) : Decidable (phonesUnique customers) := by
  unfold phonesUnique; infer_instance

/-- Two names in ascending order: strings compare lexicographically, character by
character; only string names are compared. -/
def nameAscending : JsVal → JsVal → Bool
  | .str a, .str b => decide (a.data ≤ b.data)
  | _, _ => true

/-- The list is sorted by customer name, ascending. -/
def sortedByName (customers : List Customer) : Prop :=
  customers.Pairwise (fun a b => nameAscending a.name b.name = true)

instance (customers : List Customer) : Decidable (sortedByName customers) := by
  unfold sortedByName; infer_instance

/-- The filter callback of `searchCustomersByName`:
`customer.name.toLowerCase().includes(searchTerm)`; `none` is the TypeError raised
when the name is not a string and has no `toLowerCase`. -/
def nameIncludes (rt : JsRuntime) (searchTerm : String) : JsVal → Option Bool
  | .str s => some (decide (searchTerm.data <:+: (rt.toLowerCase s).data))
  | _ => none

/-- The array method `filter` with a callback that may throw: elements are visited in
order, the first exception aborts the call. -/
def filterThrowing (p : Customer → Option Bool) : List Customer → Option (List Customer)
  | [] => some []
  | c :: cs =>
    match p c with
    | none => none
    | some keep =>
      match filterThrowing p cs with
      | none => none
      | some rest => some (if keep then c :: rest else rest)

/-- The method `searchCustomersByName`; `none` when the callback throws. -/
def CustomerService.searchCustomersByName (rt : JsRuntime) (this : CustomerService)
    (name : String) : Option (List Customer) :=
  let searchTerm := rt.toLowerCase name
  filterThrowing (fun customer => nameIncludes rt searchTerm customer.name) this.customers

/-! ## HTTP routes (`src/server.js`, `src/functions/api.js`) over the file-backed service -/

/-- What a handler sends: `res.status(..).json(..)` or `res.status(204).end()`. -/
inductive ResBody where
  | message (text : String)
  | customer (c : Customer)
  | visit (v : ServiceVisit)
  | empty
  deriving DecidableEq, Repr

/-- An HTTP response: status code and body. -/
structure Response where
  status : Nat
  body : ResBody
  deriving DecidableEq, Repr

/-- The body of `POST /api/customers`, destructured as
`{ name, phoneNumber, preferredStyles, notes }`; an absent key is `undefined`. -/
structure CustomerBody where
  name : JsVal := .undefined
  phoneNumber : JsVal := .undefined
  preferredStyles : JsVal := .undefined
  notes : JsVal := .undefined
  deriving DecidableEq, Repr

namespace Server

/-- The handler `app.post('/api/customers')` of `src/server.js`.  The file-backed
`addCustomer` always returns an object, so the `!newCustomer` branch is not taken. -/
def postCustomers (customerService : CustomerService) (now : Nat) (body : CustomerBody) :
    Response × CustomerService :=
  if !body.name.truthy || !body.phoneNumber.truthy then
    (⟨400, .message "Name and phone number are required"⟩, customerService)
  else
    let r := customerService.addCustomer now body.name body.phoneNumber
      body.preferredStyles body.notes
    (⟨201, .customer r.1⟩, r.2)

end Server

/-- The handler `app.post('/api/customers/:id/visits')` of `src/server.js`. -/
def Server.postVisits (customerService : CustomerService) (now : Nat) (id : String)
    (servicesTaken notes : JsVal) : Response × CustomerService :=
  if !servicesTaken.truthy || !servicesTaken.isArray then
    (⟨400, .message "Services taken must be an array"⟩, customerService)
  else
    match customerService.addServiceVisit now id servicesTaken notes with
    | (none, s) => (⟨404, .message "Customer not found"⟩, s)
    | (some visit, s) => (⟨201, .visit visit⟩, s)

namespace Api

/-- The handler `app.post('/api/customers')` of `src/functions/api.js`. -/
def postCustomers (customerService : CustomerService) (now : Nat) (body : CustomerBody) :
    Response × CustomerService :=
  if !body.name.truthy || !body.phoneNumber.truthy then
    (⟨400, .message "Name and phone number are required"⟩, customerService)
  else
    match customerService.getCustomerByPhone body.phoneNumber with
    | some _ =>
      (⟨409, .message "Customer with this phone number already exists"⟩, customerService)
    | none =>
      let r := customerService.addCustomer now body.name body.phoneNumber
        body.preferredStyles body.notes
      (⟨201, .customer r.1⟩, r.2)

/-- The handler `app.put('/api/customers/:id')`. -/
def putCustomer (customerService : CustomerService) (id : String) (updatedInfo : UpdatedInfo) :
    Response × CustomerService :=
  match customerService.updateCustomer id updatedInfo with
  | (none, s) => (⟨404, .message "Customer not found"⟩, s)
  | (some customer, s) => (⟨200, .customer customer⟩, s)

/-- The handler `app.post('/api/customers/:id/visits')`. -/
def postVisits (customerService : CustomerService) (now : Nat) (id : String)
    (servicesTaken notes : JsVal) : Response × CustomerService :=
  if !servicesTaken.truthy || !servicesTaken.isArray then
    (⟨400, .message "Services taken must be an array"⟩, customerService)
  else
    match customerService.addServiceVisit now id servicesTaken notes with
    | (none, s) => (⟨404, .message "Customer not found"⟩, s)
    | (some visit, s) => (⟨201, .visit visit⟩, s)

/-- The handler `app.delete('/api/customers/:id')`. -/
def deleteCustomer (customerService : CustomerService) (id : String) :
    Response × CustomerService :=
  match customerService.deleteCustomer id with
  | (false, s) => (⟨404, .message "Customer not found"⟩, s)
  | (true, s) => (⟨204, .empty⟩, s)

/-- A mutating request to the routes of `src/functions/api.js`, with the clock value
read while it is handled. -/
inductive Request where
  | postCustomers (now : Nat) (body : CustomerBody)
  | putCustomer (id : String) (updatedInfo : UpdatedInfo)
  | postVisits (now : Nat) (id : String) (servicesTaken notes : JsVal)
  | deleteCustomer (id : String)
  deriving DecidableEq, Repr

/-- Dispatch of one request to its handler. -/
def handle (customerService : CustomerService) : Request → Response × CustomerService
  | .postCustomers now body => postCustomers customerService now body
  | .putCustomer id updatedInfo => putCustomer customerService id updatedInfo
  | .postVisits now id servicesTaken notes =>
    postVisits customerService now id servicesTaken notes
  | .deleteCustomer id => deleteCustomer customerService id

/-- The store after a sequence of requests, first request first. -/
def run (customerService : CustomerService) (requests : List Request) : CustomerService :=
  requests.foldl (fun s r => (handle s r).2) customerService

end Api

/-! ## `src/services/customerServiceDB.js`: reading one customer and updating it -/

/-- A row of table `customers` as the sql client returns it. -/
structure CustomerRow where
  id : String
  name : JsVal
  phone_number : JsVal
  preferred_styles : JsVal
  notes : JsVal
  deriving DecidableEq, Repr

/-- A row of table `service_visits`. -/
structure VisitRow where
  customer_id : String
  visit_date : Nat
  services_taken : JsVal
  notes : JsVal
  deriving DecidableEq, Repr

/-- The relational store behind the sql client: the two tables.  Queries are taken to
succeed, so the `catch` branches are not entered. -/
structure CustomerServiceDB where
  customers : List CustomerRow
  service_visits : List VisitRow
  deriving DecidableEq, Repr

/-- The four values bound into the `UPDATE customers SET ...` statement. -/
structure UpdateValues where
  name : JsVal
  phoneNumber : JsVal
  preferredStyles : JsVal
  notes : JsVal
  deriving DecidableEq, Repr

namespace CustomerServiceDB

/-- The query `SELECT * FROM service_visits WHERE customer_id = id ORDER BY visit_date DESC`
mapped to `ServiceVisit` objects. -/
def serviceHistoryOf (this : CustomerServiceDB) (id : String) : List ServiceVisit :=
  ((this.service_visits.filter (fun visit => visit.customer_id == id)).insertionSort
      (fun a b => a.visit_date ≥ b.visit_date)).map
    (fun visit =>
      ServiceVisit.new (.valid visit.visit_date) (visit.services_taken.or (.arr [])) visit.notes)

/-- The method `getCustomerById` of the relational service. -/
def getCustomerById (this : CustomerServiceDB) (id : String) : Option Customer :=
  match this.customers.filter (fun row => row.id == id) with
  | [] => none
  | row :: _ =>
    let customer := Customer.new row.id row.name row.phone_number
      (row.preferred_styles.or (.arr [])) [] row.notes
    some { customer with serviceHistory := this.serviceHistoryOf id }

/-- The values computed by `updateCustomer` before the `UPDATE` statement:
`||` for name, phone number and styles, `!== undefined` for notes. -/
def updateValues (customer : Customer) (updatedInfo : UpdatedInfo) : UpdateValues :=
  { name := updatedInfo.name.or customer.name
    phoneNumber := updatedInfo.phoneNumber.or customer.phoneNumber
    preferredStyles := updatedInfo.preferredStyles.or customer.preferredStyles
    notes := if updatedInfo.notes ≠ .undefined then updatedInfo.notes else customer.notes }

/-- The method `updateCustomer` of the relational service. -/
def updateCustomer (this : CustomerServiceDB) (id : String) (updatedInfo : UpdatedInfo) :
    Option Customer × CustomerServiceDB :=
  match this.getCustomerById id with
  | none => (none, this)
  | some customer =>
    let v := updateValues customer updatedInfo
    let db : CustomerServiceDB :=
      { this with
        customers := this.customers.map (fun row =>
          if row.id == id then
            { row with name := v.name, phone_number := v.phoneNumber,
                       preferred_styles := v.preferredStyles, notes := v.notes }
          else row) }
    (db.getCustomerById id, db)

end CustomerServiceDB

/-- The values the file-backed `updateCustomer` leaves in the four fields. -/
def CustomerService.assignedValues (customer : Customer) (updatedInfo : UpdatedInfo) :
    UpdateValues :=
  let c := CustomerService.assignFields customer updatedInfo
  { name := c.name, phoneNumber := c.phoneNumber,
    preferredStyles := c.preferredStyles, notes := c.notes }

/-! ## The data file (`loadCustomers`, `saveCustomers`) -/

/-- A visit record of the parsed file, read through property access; a key that is
absent reads as `undefined`. -/
structure VisitData where
  date : JsVal
  servicesTaken : JsVal
  notes : JsVal
  deriving DecidableEq, Repr

/-- A customer record of the parsed file.  `serviceHistory` is `some` list when the
property is an array, and `none` when it is absent or anything else. -/
structure CustomerData where
  id : String
  name : JsVal
  phoneNumber : JsVal
  preferredStyles : JsVal
  serviceHistory : Option (List VisitData)
  notes : JsVal
  deriving DecidableEq, Repr

/-- The data file: missing, holding text that `JSON.parse` or the mapping of
`loadCustomers` rejects, or holding a list of customer records. -/
inductive DataFile where
  | missing
  | unreadable
  | records (customersData : List CustomerData)
  deriving DecidableEq, Repr

/-- A visit as `JSON.parse(JSON.stringify(visit))` shows it: the date is what `toJSON`
returned, the other properties go through `JsVal.jsonRoundTrip`. -/
def ServiceVisit.toData (rt : JsRuntime) (visit : ServiceVisit) : VisitData :=
  { date := rt.dateToJSON visit.date
    servicesTaken := visit.servicesTaken.jsonRoundTrip
    notes := visit.notes.jsonRoundTrip }

/-- A customer as `JSON.parse(JSON.stringify(customer))` shows it; the service history
is always an array. -/
def Customer.toData (rt : JsRuntime) (customer : Customer) : CustomerData :=
  { id := customer.id
    name := customer.name.jsonRoundTrip
    phoneNumber := customer.phoneNumber.jsonRoundTrip
    preferredStyles := customer.preferredStyles.jsonRoundTrip
    serviceHistory := some (customer.serviceHistory.map (ServiceVisit.toData rt))
    notes := customer.notes.jsonRoundTrip }

/-- The method `saveCustomers`: the file written is `JSON.stringify(this.customers)`. -/
def CustomerService.saveCustomers (rt : JsRuntime) (this : CustomerService) : DataFile :=
  .records (this.customers.map (Customer.toData rt))

/-- The mapping callback of `loadCustomers`: a `Customer` with an empty history, then
the history rebuilt from the records, each date by `new Date(visitData.date)`, when the
property is an array. -/
def customerOfData (rt : JsRuntime) (customerData : CustomerData) : Customer :=
  let customer := Customer.new customerData.id customerData.name customerData.phoneNumber
    customerData.preferredStyles [] customerData.notes
  match customerData.serviceHistory with
  | some serviceHistory =>
    { customer with
      serviceHistory := serviceHistory.map (fun visitData =>
        ServiceVisit.new (rt.newDate visitData.date) visitData.servicesTaken
          visitData.notes) }
  | none => customer

/-- The method `loadCustomers`: the customers held afterwards and the file left on disk.
A missing file is created with an empty list; an error is caught and leaves the list
empty. -/
def CustomerService.loadCustomers (rt : JsRuntime) (file : DataFile) :
    CustomerService × DataFile :=
  match file with
  | .missing => ({ customers := [] }, .records [])
  | .unreadable => ({ customers := [] }, .unreadable)
  | .records customersData =>
    ({ customers := customersData.map (customerOfData rt) }, file)

/-- A visit as the constructor `ServiceVisit` leaves it: no field `undefined`. -/
def ServiceVisit.constructed (visit : ServiceVisit) : Prop :=
  visit.servicesTaken ≠ .undefined ∧ visit.notes ≠ .undefined

/-- A customer as the constructor `Customer` and the service leave it: styles and notes
not `undefined`, every visit constructed. -/
def Customer.constructed (customer : Customer) : Prop :=
  customer.preferredStyles ≠ .undefined ∧ customer.notes ≠ .undefined
    ∧ ∀ visit ∈ customer.serviceHistory, visit.constructed

/-- Every customer of the store is constructed. -/
def CustomerService.constructed (this : CustomerService) : Prop :=
  ∀ customer ∈ this.customers, customer.constructed

/-- The visit holds no `NaN` or infinity, and its date is a valid `Date` whose ISO
string the runtime parses back to the same time value. -/
def ServiceVisit.writable (rt : JsRuntime) (visit : ServiceVisit) : Bool :=
  visit.servicesTaken.finite && visit.notes.finite &&
    match visit.date with
    | .valid time => decide (rt.parseDate (rt.toISOString time) = .valid time)
    | .invalid => false

/-- The customer holds no `NaN` or infinity and every visit is writable. -/
def Customer.writable (rt : JsRuntime) (customer : Customer) : Bool :=
  customer.name.finite && customer.phoneNumber.finite && customer.preferredStyles.finite
    && customer.notes.finite && customer.serviceHistory.all (fun visit => visit.writable rt)

/-- Every customer of the store is writable. -/
def CustomerService.writable (rt : JsRuntime) (this : CustomerService) : Bool :=
  this.customers.all (fun customer => customer.writable rt)

/-! ## Backend selection (`src/db/index.js`, `src/server.js`, `src/functions/api.js`) -/

/-- What the process finds at start: the variable `DATABASE_URL`, and whether creating
the client, reading `schema.sql` and running it all complete without an exception. -/
structure Environment where
  databaseUrl : Option String
  schemaRuns : Bool
  deriving DecidableEq, Repr

/-- The client returned by `neon(process.env.DATABASE_URL)`. -/
structure SqlClient where
  url : String
  deriving DecidableEq, Repr

/-- The function `initializeDatabase` of `src/db/index.js`: null when the variable is
missing or empty, null when anything in the `try` block throws, the client otherwise. -/
def initializeDatabase (env : Environment) : Option SqlClient :=
  match env.databaseUrl with
  | none => none
  | some url =>
    if url = "" then none
    else if env.schemaRuns then some { url := url }
    else none

/-- What a `require` binds: a function, or an object that has the function as its
property `initializeDatabase`. -/
inductive Imported where
  | function (f : Environment → Option SqlClient)
  | object (initializeDatabase : Environment → Option SqlClient)

/-- The exports of `src/db/index.js`: `module.exports = { initializeDatabase }`. -/
def dbModule : Imported := .object initializeDatabase

/-- Destructuring `const { initializeDatabase } = ...`: the property of the object. -/
def Imported.destructure : Imported → Imported
  | .object f => .function f
  | .function f => .function f

/-- The call `await initializeDatabase()`: a function runs; calling an object raises
a TypeError. -/
def Imported.call : Imported → Environment → Except String (Option SqlClient)
  | .function f, env => .ok (f env)
  | .object _, _ => .error "TypeError: initializeDatabase is not a function"

/-- The service object held in `customerService` after start. -/
inductive SelectedService where
  | relational (sqlClient : Option SqlClient)
  | fileBacked
  deriving DecidableEq, Repr

/-- The start of `src/server.js`: `const { initializeDatabase } = require('./db')`, then
the relational service when the client is truthy, the file-backed one otherwise and in
the `catch` branch. -/
def Server.selectService (env : Environment) : SelectedService :=
  match dbModule.destructure.call env with
  | .ok sqlClient =>
    if sqlClient.isSome then .relational sqlClient else .fileBacked
  | .error _ => .fileBacked

/-- The start of `src/functions/api.js`: `const initializeDatabase = require('../db')`,
then the relational service with whatever the call returned, the file-backed one in the
`catch` branch. -/
def Api.selectService (env : Environment) : SelectedService :=
  match dbModule.call env with
  | .ok sqlClient => .relational sqlClient
  | .error _ => .fileBacked

/-! ## `src/services/customerServiceDB.js` against a client that may fail

Each method is a function of the outcomes of the queries it awaits, so that every
behaviour of the client is covered: any query may return rows or throw.  A missing client
(`this.sql` undefined) is the case where every query throws a TypeError.  The query
parameters (ids, names) only enter the queries and do not appear. -/

/-- What awaiting one query gives: the rows, or an exception. -/
inductive QueryResult (ρ : Type) where
  | rows (result : List ρ)
  | throws
  deriving DecidableEq, Repr

/-- The expression `await this.sql(...)` inside a method: a value or a thrown error. -/
def QueryResult.await {ρ : Type} : QueryResult ρ → Except String (List ρ)
  | .rows result => .ok result
  | .throws => .error "query failed"

/-- The statement `try { body } catch (error) { handler }`. -/
def tryCatchJs {α : Type} (body : Except String α) (handler : String → Except String α) :
    Except String α :=
  match body with
  | .ok value => .ok value
  | .error error => handler error

/-- The builtin `Promise.all` awaited: the values in order, or the first rejection. -/
def promiseAll {α : Type} : List (Except String α) → Except String (List α)
  | [] => .ok []
  | p :: ps =>
    match p with
    | .error error => .error error
    | .ok value =>
      match promiseAll ps with
      | .error error => .error error
      | .ok values => .ok (value :: values)

/-- The array method `map` with a callback that awaits: the callback for the row at
position `i` receives the outcome `outcomes i` of what it awaits. -/
def mapAwaiting {ρ σ β : Type} (callback : ρ → σ → β) : List ρ → (Nat → σ) → List β
  | [], _ => []
  | row :: rows, outcomes =>
    callback row (outcomes 0) :: mapAwaiting callback rows (fun i => outcomes (i + 1))

/-- The outcomes of the two queries of one `getCustomerById` call. -/
structure Lookup where
  customerResult : QueryResult CustomerRow
  serviceVisits : QueryResult VisitRow
  deriving DecidableEq, Repr

/-- The object `new ServiceVisit(new Date(visit.visit_date), visit.services_taken || [],
visit.notes)` built from a row. -/
def visitOfRow (visit : VisitRow) : ServiceVisit :=
  ServiceVisit.new (.valid visit.visit_date) (visit.services_taken.or (.arr [])) visit.notes

/-- The object `new Customer(row.id, row.name, row.phone_number,
row.preferred_styles || [], [], row.notes)` built from a row. -/
def customerOfRow (row : CustomerRow) : Customer :=
  Customer.new row.id row.name row.phone_number (row.preferred_styles.or (.arr [])) []
    row.notes

namespace Relational

/-- The method `getCustomerById`. -/
def getCustomerById (q : Lookup) : Except String (Option Customer) :=
  tryCatchJs
    (match q.customerResult.await with
     | .error error => .error error
     | .ok [] => .ok none
     | .ok (row :: _) =>
       let customer := customerOfRow row
       match q.serviceVisits.await with
       | .error error => .error error
       | .ok serviceVisits =>
         .ok (some { customer with serviceHistory := serviceVisits.map visitOfRow }))
    (fun _ => .ok none)

/-- The async callback that `getAllCustomers` maps over the rows: the customer of the
row, with the history its visits query returned. -/
def customerWithHistory (row : CustomerRow) (serviceVisits : QueryResult VisitRow) :
    Except String Customer :=
  let customer := customerOfRow row
  match serviceVisits.await with
  | .error error => .error error
  | .ok serviceVisits => .ok { customer with serviceHistory := serviceVisits.map visitOfRow }

/-- The method `getAllCustomers`; `serviceVisits i` is the outcome of the visits query
for the row at position `i`. -/
def getAllCustomers (customersResult : QueryResult CustomerRow)
    (serviceVisits : Nat → QueryResult VisitRow) : Except String (List Customer) :=
  tryCatchJs
    (match customersResult.await with
     | .error error => .error error
     | .ok customersResult =>
       promiseAll (mapAwaiting customerWithHistory customersResult serviceVisits))
    (fun _ => .ok [])

/-- The method `getCustomerByPhone`. -/
def getCustomerByPhone (customerResult : QueryResult CustomerRow) (lookup : Lookup) :
    Except String (Option Customer) :=
  tryCatchJs
    (match customerResult.await with
     | .error error => .error error
     | .ok [] => .ok none
     | .ok (_ :: _) => getCustomerById lookup)
    (fun _ => .ok none)

/-- The method `searchCustomersByName`; `lookups i` holds the outcomes of the
`getCustomerById` call for the row at position `i`. -/
def searchCustomersByName (customersResult : QueryResult CustomerRow)
    (lookups : Nat → Lookup) : Except String (List Customer) :=
  tryCatchJs
    (match customersResult.await with
     | .error error => .error error
     | .ok customersResult =>
       match promiseAll (mapAwaiting (fun (_ : CustomerRow) q => getCustomerById q)
           customersResult lookups) with
       | .error error => .error error
       | .ok customers => .ok (customers.filterMap (fun c => c)))
    (fun _ => .ok [])

/-- The method `addCustomer`: the `INSERT`, then `getCustomerById` of the new id. -/
def addCustomer (insert : QueryResult Unit) (lookup : Lookup) :
    Except String (Option Customer) :=
  tryCatchJs
    (match insert.await with
     | .error error => .error error
     | .ok _ => getCustomerById lookup)
    (fun _ => .ok none)

/-- The method `updateCustomer`: the current customer, the `UPDATE`, the customer read
again. -/
def updateCustomer (current : Lookup) (update : QueryResult Unit) (updated : Lookup) :
    Except String (Option Customer) :=
  tryCatchJs
    (match getCustomerById current with
     | .error error => .error error
     | .ok none => .ok none
     | .ok (some _) =>
       match update.await with
       | .error error => .error error
       | .ok _ => getCustomerById updated)
    (fun _ => .ok none)

/-- The method `addServiceVisit`: the customer, then the `INSERT ... RETURNING *`. -/
def addServiceVisit (lookup : Lookup) (visitResult : QueryResult VisitRow) :
    Except String (Option ServiceVisit) :=
  tryCatchJs
    (match getCustomerById lookup with
     | .error error => .error error
     | .ok none => .ok none
     | .ok (some _) =>
       match visitResult.await with
       | .error error => .error error
       | .ok [] => .ok none
       | .ok (visit :: _) => .ok (some (visitOfRow visit)))
    (fun _ => .ok none)

/-- The method `deleteCustomer`: the customer, then the `DELETE`. -/
def deleteCustomer (lookup : Lookup) (delete : QueryResult Unit) : Except String Bool :=
  tryCatchJs
    (match getCustomerById lookup with
     | .error error => .error error
     | .ok none => .ok false
     | .ok (some _) =>
       match delete.await with
       | .error error => .error error
       | .ok _ => .ok true)
    (fun _ => .ok false)

end Relational

/-- A query that `getCustomerById` awaits throws: the customer query, or the visits
query issued after a customer row was found. -/
def Lookup.fails (q : Lookup) : Prop :=
  q.customerResult = .throws
    ∨ ((∃ row rest, q.customerResult = .rows (row :: rest)) ∧ q.serviceVisits = .throws)

/-! ## Predicates used to state the properties -/

/-- The lower-cased name of the customer contains the lower-cased term as a substring. -/
def nameContains (rt : JsRuntime) (term : String) (c : Customer) : Bool :=
  match c.name with
  | .str s => decide ((rt.toLowerCase term).data <:+: (rt.toLowerCase s).data)
  | _ => false

/-- Every name of the list that is a string holds ASCII characters only. -/
def asciiNames (customers : List Customer) : Bool :=
  customers.all (fun c =>
    match c.name with
    | .str s => isAscii s
    | _ => true)

/-- Every customer of the list has a string as its name, as the data model declares. -/
def namesAreStrings (customers : List Customer) : Prop :=
  ∀ c ∈ customers, ∃ s, c.name = .str s

/-- The customer `after` is the customer `before` with the same id and a service
history that starts with the whole history of `before`. -/
def historyExtends (before after : Customer) : Prop :=
  after.id = before.id ∧ before.serviceHistory <+: after.serviceHistory

/-- Some customer of the list `after` has the id of `c`. -/
def presentAfter (after : List Customer) (c : Customer) : Bool :=
  after.any (fun a => a.id == c.id)

/-! ## Sample data -/

/-- A runtime for the worked examples: `toLowerCase` on the ASCII range, and the `Date`
builtins on the two time values the examples use, 1500 and 9000 milliseconds, with their
ISO strings.  Outside these its values are placeholders that no theorem relies on. -/
def sampleRuntime : JsRuntime :=
  { toLowerCase := fun s => String.mk (s.data.map Char.toLower)
    toLowerCase_ascii := fun _ _ => rfl
    toISOString := fun time =>
      if time = 9000 then "1970-01-01T00:00:09.000Z"
      else if time = 1500 then "1970-01-01T00:00:01.500Z"
      else ""
    parseDate := fun s =>
      if s = "1970-01-01T00:00:09.000Z" then .valid 9000
      else if s = "1970-01-01T00:00:01.500Z" then .valid 1500
      else .invalid }

/-- A stored customer named Jane Doe. -/
def janeDoe : Customer :=
  { id := "1000", name := .str "Jane Doe", phoneNumber := .str "555-0100",
    preferredStyles := .arr [], serviceHistory := [], notes := .str "" }

/-- A stored customer named Bob Smith, with one visit on record. -/
def bobSmith : Customer :=
  { id := "2000", name := .str "Bob Smith", phoneNumber := .str "555-0199",
    preferredStyles := .arr ["Fade"],
    serviceHistory := [{ date := .valid 1500, servicesTaken := .arr ["Haircut"], notes := .str "" }],
    notes := .str "likes fades" }

/-- Two `addCustomer` calls, the later name first in the alphabet. -/
def zoeThenAmy : List Op :=
  [.addCustomer 1000 (.str "Zoe Ray") (.str "555-0101") .undefined .undefined,
   .addCustomer 2000 (.str "Amy Ray") (.str "555-0102") .undefined .undefined]

/-- Two `addCustomer` calls reading the same millisecond. -/
def sameMillisecond : List Op :=
  [.addCustomer 1000 (.str "Bob Smith") (.str "555-0199") .undefined .undefined,
   .addCustomer 1000 (.str "Jane Doe") (.str "555-0100") .undefined .undefined]

/-- The store after `addCustomer("Bob Smith", "555-0199")` at clock value 1000 on the
empty store. -/
def afterBob : CustomerService :=
  (CustomerService.empty.addCustomer 1000 (.str "Bob Smith") (.str "555-0199")
    .undefined .undefined).2

/-- A relational store holding Bob Smith and his one visit. -/
def bobDb : CustomerServiceDB :=
  { customers := [{ id := "2000", name := .str "Bob Smith", phone_number := .str "555-0199",
                    preferred_styles := .arr ["Fade"], notes := .str "likes fades" }]
    service_visits := [{ customer_id := "2000", visit_date := 1500,
                         services_taken := .arr ["Haircut"], notes := .str "" }] }

/-- A start with `DATABASE_URL` set and a database that accepts the schema. -/
def databaseUp : Environment :=
  { databaseUrl := some "postgres://salon", schemaRuns := true }

/-- The row of Jane Doe in table `customers`. -/
def janeRow : CustomerRow :=
  { id := "1000", name := .str "Jane Doe", phone_number := .str "555-0100",
    preferred_styles := .arr [], notes := .str "" }

/-- The row of Bob Smith in table `customers`. -/
def bobRow : CustomerRow :=
  { id := "2000", name := .str "Bob Smith", phone_number := .str "555-0199",
    preferred_styles := .arr ["Fade"], notes := .str "likes fades" }

/-- The lookups of a search that matched two rows: the first one answers with the row
of Jane Doe and no visits, every later customer query throws. -/
def secondLookupThrows : Nat → Lookup
  | 0 => { customerResult := .rows [janeRow], serviceVisits := .rows [] }
  | _ => { customerResult := .throws, serviceVisits := .throws }

/-- The lookup of a service built without a client: both queries throw. -/
def missingClient : Lookup :=
  { customerResult := .throws, serviceVisits := .throws }

/-- The visits queries of a listing: the first returns no visit, every later one throws. -/
def laterVisitsThrow : Nat → QueryResult VisitRow
  | 0 => .rows []
  | _ => .throws

/-- A data file with one customer whose only visit has a date that does not parse. -/
def unparseableDateFile : DataFile :=
  .records
    [{ id := "1000", name := .str "Jane Doe", phoneNumber := .str "555-0100",
       preferredStyles := .arr [],
       serviceHistory := some
         [{ date := .str "not a date", servicesTaken := .arr ["Haircut"], notes := .str "" }],
       notes := .str "" }]

/-- Jane Doe is added to the empty store, then her name is updated to `Infinity`. -/
def infiniteName : List Op :=
  [.addCustomer 1000 (.str "Jane Doe") (.str "555-0100") .undefined .undefined,
   .updateCustomer "1000" { name := .infinity false }]

/-- Jane Doe is added to the empty store and gets one visit. -/
def janeWithVisit : List Op :=
  [.addCustomer 1000 (.str "Jane Doe") (.str "555-0100") .undefined .undefined,
   .addServiceVisit 9000 "1000" (.arr ["Haircut", "Beard Trim"]) (.str "regular")]

/-- Two customers created through the api.js routes, then the second one's phone
number set to the first one's by a `PUT`. -/
def putDuplicatePhone : List Api.Request :=
  [.postCustomers 1000 { name := .str "Jane Doe", phoneNumber := .str "555-0100" },
   .postCustomers 2000 { name := .str "Bob Smith", phoneNumber := .str "555-0199" },
   .putCustomer "2000" { phoneNumber := .str "555-0100" }]

/-! ## Lemmas on the first match of a list -/

namespace CustomerService

theorem findIdx?_at_split (p : Customer → Bool) (pre post : List Customer) (c : Customer)
    (hpre : ∀ x ∈ pre, p x = false) (hc : p c = true) :
    (pre ++ c :: post).findIdx? p = some pre.length := by
  induction pre with
  | nil => simp [hc]
  | cons a as ih =>
    have ha : p a = false := hpre a (by simp)
    have ih2 := ih (fun x hx => hpre x (by simp [hx]))
    simp [ha, ih2]

theorem mutateFound_at_split (p : Customer → Bool) (f : Customer → Customer)
    (pre post : List Customer) (c : Customer)
    (hpre : ∀ x ∈ pre, p x = false) (hc : p c = true) :
    mutateFound p f (pre ++ c :: post) = pre ++ f c :: post := by
  induction pre with
  | nil => simp [mutateFound, hc]
  | cons a as ih =>
    have ha : p a = false := hpre a (by simp)
    have ih2 := ih (fun x hx => hpre x (by simp [hx]))
    simp [mutateFound, ha, ih2]

theorem getCustomerById_split (this : CustomerService) (id : String) (c : Customer)
    (h : this.getCustomerById id = some c) :
    ∃ pre post, this.customers = pre ++ c :: post ∧ c.id = id ∧ ∀ x ∈ pre, x.id ≠ id := by
  unfold getCustomerById at h
  rw [List.find?_eq_some] at h
  obtain ⟨hc, pre, post, hsplit, hpre⟩ := h
  refine ⟨pre, post, hsplit, by simpa using hc, ?_⟩
  intro x hx
  simpa using hpre x hx

theorem getCustomerById_at_split (pre post : List Customer) (c : Customer) (id : String)
    (hpre : ∀ x ∈ pre, x.id ≠ id) (hc : c.id = id) :
    getCustomerById ⟨pre ++ c :: post⟩ id = some c := by
  unfold getCustomerById
  rw [List.find?_eq_some]
  refine ⟨by simpa using hc, pre, post, rfl, ?_⟩
  intro a ha
  simpa using hpre a ha

theorem updateCustomer_at_split (pre post : List Customer) (c : Customer) (id : String)
    (updatedInfo : UpdatedInfo) (hpre : ∀ x ∈ pre, x.id ≠ id) (hc : c.id = id) :
    updateCustomer ⟨pre ++ c :: post⟩ id updatedInfo =
      (some (assignFields c updatedInfo), ⟨pre ++ assignFields c updatedInfo :: post⟩) := by
  have hidx : (pre ++ c :: post).findIdx? (fun customer => customer.id == id)
      = some pre.length :=
    findIdx?_at_split _ pre post c (fun x hx => by simpa using hpre x hx) (by simpa using hc)
  have hget : (pre ++ c :: post)[pre.length]? = some c := by
    rw [List.getElem?_append_right (Nat.le_refl _)]
    simp
  have hset : ∀ c2 : Customer, (pre ++ c :: post).set pre.length c2 = pre ++ c2 :: post := by
    intro c2; simp
  unfold updateCustomer
  simp only [hidx, hget, hset]

theorem updateCustomer_absent (this : CustomerService) (id : String)
    (updatedInfo : UpdatedInfo) (h : this.getCustomerById id = none) :
    this.updateCustomer id updatedInfo = (none, this) := by
  unfold getCustomerById at h
  rw [List.find?_eq_none] at h
  have hidx : this.customers.findIdx? (fun customer => customer.id == id) = none := by
    rw [List.findIdx?_eq_none_iff]
    intro x hx
    simpa using h x hx
  simp [updateCustomer, hidx]

theorem addServiceVisit_at_split (pre post : List Customer) (c : Customer) (now : Nat)
    (id : String) (servicesTaken notes : JsVal)
    (hpre : ∀ x ∈ pre, x.id ≠ id) (hc : c.id = id) :
    addServiceVisit ⟨pre ++ c :: post⟩ now id servicesTaken notes =
      (some (ServiceVisit.new (.valid now) servicesTaken (notes.withDefault (.str ""))),
        ⟨pre ++ c.addServiceVisit
            (ServiceVisit.new (.valid now) servicesTaken (notes.withDefault (.str ""))) :: post⟩) := by
  have hget := getCustomerById_at_split pre post c id hpre hc
  have hmut := mutateFound_at_split (fun customer => customer.id == id)
    (fun customer => customer.addServiceVisit
      (ServiceVisit.new (.valid now) servicesTaken (notes.withDefault (.str ""))))
    pre post c (fun x hx => by simpa using hpre x hx) (by simpa using hc)
  simp [addServiceVisit, hget, hmut]

theorem addServiceVisit_absent_unchanged_aux (this : CustomerService) (now : Nat)
    (id : String) (servicesTaken notes : JsVal) (habsent : ∀ x ∈ this.customers, x.id ≠ id) :
    this.addServiceVisit now id servicesTaken notes = (none, this) := by
  have hget : this.getCustomerById id = none := by
    unfold getCustomerById
    rw [List.find?_eq_none]
    intro x hx
    simpa using habsent x hx
  simp [addServiceVisit, hget]

theorem filterThrowing_congr (p q : Customer → Option Bool) (l : List Customer)
    (h : ∀ c ∈ l, p c = q c) : filterThrowing p l = filterThrowing q l := by
  induction l with
  | nil => rfl
  | cons a as ih =>
    have ha : p a = q a := h a (by simp)
    have ih2 := ih (fun c hc => h c (by simp [hc]))
    simp only [filterThrowing, ha, ih2]

/-- On an ASCII term and ASCII names every runtime computes the search that the sample
runtime computes. -/
theorem searchCustomersByName_ascii (rt : JsRuntime) (this : CustomerService) (term : String)
    (hterm : isAscii term = true) (hnames : asciiNames this.customers = true) :
    this.searchCustomersByName rt term = this.searchCustomersByName sampleRuntime term := by
  unfold searchCustomersByName
  apply filterThrowing_congr
  intro c hc
  have hc2 := (List.all_eq_true.mp hnames) c hc
  cases hname : c.name with
  | str s =>
    rw [hname] at hc2
    simp only [nameIncludes, rt.toLowerCase_ascii term hterm, rt.toLowerCase_ascii s hc2,
      sampleRuntime.toLowerCase_ascii term hterm, sampleRuntime.toLowerCase_ascii s hc2]
  | _ => rfl

theorem withDefault_idem (v d : JsVal) (hd : d ≠ .undefined) :
    (v.withDefault d).withDefault d = v.withDefault d := by
  unfold JsVal.withDefault
  by_cases h : v = .undefined <;> simp [h, hd]

end CustomerService

/-! ## Listing and creation -/

open CustomerService

/-- C1: the file-backed `getAllCustomers` and `searchCustomersByName` return the
customers in insertion order.  After adding "Zoe Ray" and then "Amy Ray" to the empty
store, the full listing and the result of searching "ray" both put "Zoe Ray" first, so
neither is sorted by name ascending. -/
theorem getAllCustomers_insertion_order_unsorted (rt : JsRuntime) :
    (runOps CustomerService.empty zoeThenAmy).getAllCustomers.map (fun c => c.name)
        = [.str "Zoe Ray", .str "Amy Ray"]
      ∧ ¬ sortedByName (runOps CustomerService.empty zoeThenAmy).getAllCustomers
      ∧ ((runOps CustomerService.empty zoeThenAmy).searchCustomersByName rt "ray").map
          (fun r => r.map (fun c => c.name)) = some [.str "Zoe Ray", .str "Amy Ray"]
      ∧ ((runOps CustomerService.empty zoeThenAmy).searchCustomersByName rt "ray").map
          (fun r => decide (sortedByName r)) = some false := by
  rw [searchCustomersByName_ascii rt _ "ray" (by decide) (by decide)]
  decide

/-- When no stored customer has the id `Date.now().toString()`, the customer returned by
`addCustomer` is the one `getCustomerById` finds afterwards; it carries the given name
and phone number, the given styles and notes (the declared defaults `[]` and `''` when
they are `undefined`), and an empty service history. -/
theorem addCustomer_getCustomerById_fresh (this : CustomerService) (now : Nat)
    (name phoneNumber preferredStyles notes : JsVal)
    (hfresh : this.getCustomerById (toString now) = none) :
    (this.addCustomer now name phoneNumber preferredStyles notes).2.getCustomerById
        (this.addCustomer now name phoneNumber preferredStyles notes).1.id
      = some { id := toString now, name := name, phoneNumber := phoneNumber,
               preferredStyles := preferredStyles.withDefault (.arr []),
               serviceHistory := [],
               notes := notes.withDefault (.str "") } := by
  unfold getCustomerById at hfresh
  rw [List.find?_eq_none] at hfresh
  have happ := getCustomerById_at_split this.customers []
    (this.addCustomer now name phoneNumber preferredStyles notes).1 (toString now)
    (fun x hx => by simpa using hfresh x hx) rfl
  have h1 : (JsVal.arr []) ≠ JsVal.undefined := by decide
  have h2 : (JsVal.str "") ≠ JsVal.undefined := by decide
  simp only [addCustomer, Customer.new, withDefault_idem _ _ h1, withDefault_idem _ _ h2]
    at happ ⊢
  exact happ

/-- C2: two `addCustomer` calls that read the same millisecond get the same id.  With
"Bob Smith" added at clock value 1000, adding "Jane Doe" / "555-0100" at 1000 returns a
customer with id "1000", and `getCustomerById` of that id finds the customer stored
first, "Bob Smith", not the one just created. -/
theorem addCustomer_same_millisecond_lookup :
    (afterBob.addCustomer 1000 (.str "Jane Doe") (.str "555-0100")
        .undefined .undefined).1.id = "1000"
      ∧ ((afterBob.addCustomer 1000 (.str "Jane Doe") (.str "555-0100")
            .undefined .undefined).2.getCustomerById
          (afterBob.addCustomer 1000 (.str "Jane Doe") (.str "555-0100")
            .undefined .undefined).1.id).map (fun c => (c.name, c.phoneNumber))
        = some (.str "Bob Smith", .str "555-0199") := by
  decide

/-- C3: `Date.now().toString()` is the same string for two calls in one millisecond.
The clock values 1000, 1000 are non-decreasing, and the store reached from the empty
one by the two `addCustomer` calls holds two customers with the id "1000". -/
theorem addCustomer_same_millisecond_ids :
    (addCustomerClock sameMillisecond).Pairwise (fun a b => a ≤ b)
      ∧ (runOps CustomerService.empty sameMillisecond).customers.map (fun c => c.id)
          = ["1000", "1000"]
      ∧ ¬ idsUnique (runOps CustomerService.empty sameMillisecond).customers := by
  decide

/-! ## The routes that create and update customers -/

/-- The handler of `src/functions/api.js` rejects a registered phone number: with a
truthy name and phone number and a stored customer that `getCustomerByPhone` finds, it
answers 409 and returns the store as it was. -/
theorem Api.postCustomers_conflict (customerService : CustomerService) (now : Nat)
    (body : CustomerBody) (existing : Customer)
    (hname : body.name.truthy = true) (hphone : body.phoneNumber.truthy = true)
    (hexists : customerService.getCustomerByPhone body.phoneNumber = some existing) :
    Api.postCustomers customerService now body
      = (⟨409, .message "Customer with this phone number already exists"⟩,
          customerService) := by
  simp [Api.postCustomers, hname, hphone, hexists]

/-- C4: the handler of `src/server.js` has no duplicate-phone check.  With "Jane Doe" /
"555-0100" stored, a request for "Bob Smith" with the phone number "555-0100" is
answered 201, `addCustomer` runs, and the store holds two customers with that number. -/
theorem Server.postCustomers_accepts_registered_phone :
    (CustomerService.getCustomerByPhone ⟨[janeDoe]⟩ (.str "555-0100")).isSome = true
      ∧ (Server.postCustomers ⟨[janeDoe]⟩ 2000
          { name := .str "Bob Smith", phoneNumber := .str "555-0100" }).1.status = 201
      ∧ (Server.postCustomers ⟨[janeDoe]⟩ 2000
          { name := .str "Bob Smith", phoneNumber := .str "555-0100" }).2.customers.map
            (fun c => c.phoneNumber) = [.str "555-0100", .str "555-0100"] := by
  decide

/-- C5: `PUT /api/customers/:id` assigns a phone number without looking for another
holder.  Two customers created with distinct numbers through the api.js routes, then a
`PUT` of the first number onto the second customer (answered 200), leave two customers
sharing "555-0100". -/
theorem Api.put_duplicates_phone :
    (Api.run CustomerService.empty putDuplicatePhone).customers.map
        (fun c => (c.id, c.phoneNumber))
        = [("1000", .str "555-0100"), ("2000", .str "555-0100")]
      ∧ ¬ phonesUnique (Api.run CustomerService.empty putDuplicatePhone).customers := by
  decide

/-! ## Updating a customer -/

/-- The customer left by the four conditional assignments, field by field. -/
theorem assignFields_eq (c : Customer) (updatedInfo : UpdatedInfo) :
    assignFields c updatedInfo =
      { id := c.id
        name := if updatedInfo.name.truthy then updatedInfo.name else c.name
        phoneNumber :=
          if updatedInfo.phoneNumber.truthy then updatedInfo.phoneNumber else c.phoneNumber
        preferredStyles :=
          if updatedInfo.preferredStyles.truthy then updatedInfo.preferredStyles
          else c.preferredStyles
        serviceHistory := c.serviceHistory
        notes := if updatedInfo.notes.truthy then updatedInfo.notes else c.notes } := by
  unfold assignFields
  cases h1 : updatedInfo.name.truthy <;> cases h2 : updatedInfo.phoneNumber.truthy <;>
    cases h3 : updatedInfo.preferredStyles.truthy <;> cases h4 : updatedInfo.notes.truthy <;>
    simp

/-- C6: for an id that `getCustomerById` resolves to `c`, the file-backed
`updateCustomer(id, updatedInfo)` returns and stores a customer in which each of name,
phoneNumber, preferredStyles and notes is the value of `updatedInfo` when that value is
truthy and the value of `c` otherwise (`undefined`, the value of an omitted key, is
falsy); with the empty partial the returned customer is `c` and the store is as before. -/
theorem updateCustomer_assigns_truthy_fields (this : CustomerService) (id : String)
    (updatedInfo : UpdatedInfo) (c : Customer)
    (hexists : this.getCustomerById id = some c) :
    ∃ c2 : Customer,
      (this.updateCustomer id updatedInfo).1 = some c2
      ∧ (this.updateCustomer id updatedInfo).2.getCustomerById id = some c2
      ∧ c2.name = (if updatedInfo.name.truthy then updatedInfo.name else c.name)
      ∧ c2.phoneNumber =
          (if updatedInfo.phoneNumber.truthy then updatedInfo.phoneNumber else c.phoneNumber)
      ∧ c2.preferredStyles =
          (if updatedInfo.preferredStyles.truthy then updatedInfo.preferredStyles
           else c.preferredStyles)
      ∧ c2.notes = (if updatedInfo.notes.truthy then updatedInfo.notes else c.notes)
      ∧ this.updateCustomer id {} = (some c, this) := by
  obtain ⟨pre, post, hsplit, hc, hpre⟩ := getCustomerById_split this id c hexists
  have hthis : this = ⟨pre ++ c :: post⟩ := by
    cases this; simp_all
  subst hthis
  refine ⟨assignFields c updatedInfo, ?_, ?_, ?_, ?_, ?_, ?_, ?_⟩
  · rw [updateCustomer_at_split pre post c id updatedInfo hpre hc]
  · rw [updateCustomer_at_split pre post c id updatedInfo hpre hc]
    exact getCustomerById_at_split pre post _ id hpre (by rw [assignFields_eq]; exact hc)
  · rw [assignFields_eq]
  · rw [assignFields_eq]
  · rw [assignFields_eq]
  · rw [assignFields_eq]
  · rw [updateCustomer_at_split pre post c id {} hpre hc]
    have : assignFields c {} = c := by
      rw [assignFields_eq]; simp [JsVal.truthy]
    rw [this]

/-- C6, on a concrete store: Bob Smith updated with a new name, an empty phone number
and no other key. -/
theorem updateCustomer_assigns_truthy_fields_witness :
    ∃ c2 : Customer,
      (updateCustomer ⟨[janeDoe, bobSmith]⟩ "2000"
          { name := .str "Robert Smith", phoneNumber := .str "" }).1 = some c2
      ∧ (updateCustomer ⟨[janeDoe, bobSmith]⟩ "2000"
          { name := .str "Robert Smith", phoneNumber := .str "" }).2.getCustomerById "2000"
          = some c2
      ∧ c2.name = .str "Robert Smith"
      ∧ c2.phoneNumber = .str "555-0199"
      ∧ c2.preferredStyles = .arr ["Fade"]
      ∧ c2.notes = .str "likes fades"
      ∧ updateCustomer ⟨[janeDoe, bobSmith]⟩ "2000" {} = (some bobSmith, ⟨[janeDoe, bobSmith]⟩) :=
  updateCustomer_assigns_truthy_fields ⟨[janeDoe, bobSmith]⟩ "2000"
    { name := .str "Robert Smith", phoneNumber := .str "" } bobSmith (by decide)

/-- C7: the file-backed `updateCustomer(id, updatedInfo)` has a bounded effect.  When no
customer has the id it returns null and the store is unchanged.  When `getCustomerById`
resolves the id to `c`, the list is `pre ++ c :: post` with no customer of `pre` having
the id, and afterwards it is `pre ++ c2 :: post` for the returned customer `c2`, whose
id and serviceHistory are those of `c` whatever `updatedInfo` carries: every other
customer, the length and the order are unchanged. -/
theorem updateCustomer_frame (this : CustomerService) (id : String)
    (updatedInfo : UpdatedInfo) :
    ((∀ x ∈ this.customers, x.id ≠ id) →
        this.updateCustomer id updatedInfo = (none, this))
      ∧ (∀ c : Customer, this.getCustomerById id = some c →
          ∃ (pre post : List Customer) (c2 : Customer),
            this.customers = pre ++ c :: post
            ∧ (∀ x ∈ pre, x.id ≠ id)
            ∧ this.updateCustomer id updatedInfo = (some c2, ⟨pre ++ c2 :: post⟩)
            ∧ c2.id = c.id
            ∧ c2.serviceHistory = c.serviceHistory
            ∧ (this.updateCustomer id updatedInfo).2.customers.length
                = this.customers.length) := by
  constructor
  · intro habsent
    apply updateCustomer_absent
    unfold getCustomerById
    rw [List.find?_eq_none]
    intro x hx
    simpa using habsent x hx
  · intro c hexists
    obtain ⟨pre, post, hsplit, hc, hpre⟩ := getCustomerById_split this id c hexists
    have hthis : this = ⟨pre ++ c :: post⟩ := by
      cases this; simp_all
    subst hthis
    refine ⟨pre, post, assignFields c updatedInfo, rfl, hpre, ?_, ?_, ?_, ?_⟩
    · exact updateCustomer_at_split pre post c id updatedInfo hpre hc
    · rw [assignFields_eq]
    · rw [assignFields_eq]
    · rw [updateCustomer_at_split pre post c id updatedInfo hpre hc]
      simp

/-- C7, on a concrete store: an absent id, and Bob Smith updated with a partial that
carries an `id` and a `serviceHistory` key. -/
theorem updateCustomer_frame_witness :
    updateCustomer ⟨[janeDoe, bobSmith]⟩ "3000" { name := .str "Nobody" }
        = (none, ⟨[janeDoe, bobSmith]⟩)
      ∧ ∃ (pre post : List Customer) (c2 : Customer),
          [janeDoe, bobSmith] = pre ++ bobSmith :: post
          ∧ (∀ x ∈ pre, x.id ≠ "2000")
          ∧ updateCustomer ⟨[janeDoe, bobSmith]⟩ "2000"
              { notes := .str "prefers mornings", id := .str "9", serviceHistory := .arr [] }
              = (some c2, ⟨pre ++ c2 :: post⟩)
          ∧ c2.id = bobSmith.id
          ∧ c2.serviceHistory = bobSmith.serviceHistory
          ∧ (updateCustomer ⟨[janeDoe, bobSmith]⟩ "2000"
              { notes := .str "prefers mornings", id := .str "9",
                serviceHistory := .arr [] }).2.customers.length = 2 :=
  ⟨(updateCustomer_frame ⟨[janeDoe, bobSmith]⟩ "3000" { name := .str "Nobody" }).1
      (by decide),
   (updateCustomer_frame ⟨[janeDoe, bobSmith]⟩ "2000"
      { notes := .str "prefers mornings", id := .str "9", serviceHistory := .arr [] }).2
      bobSmith (by decide)⟩

/-! ## The update of the two backends compared -/

/-- C8, as stated, fails for a partial whose notes is the empty string.  For Bob Smith
with notes "likes fades", the relational `updateCustomer` binds `''` into its `UPDATE`
and returns a customer with notes `''`, while the file-backed one keeps "likes fades". -/
theorem updateCustomer_empty_notes_backends_differ :
    (CustomerServiceDB.updateValues bobSmith { notes := .str "" }).notes = .str ""
      ∧ (CustomerService.assignedValues bobSmith { notes := .str "" }).notes
          = .str "likes fades"
      ∧ CustomerServiceDB.updateValues bobSmith { notes := .str "" }
          ≠ CustomerService.assignedValues bobSmith { notes := .str "" }
      ∧ (bobDb.getCustomerById "2000").map (fun c => c.notes) = some (.str "likes fades")
      ∧ (bobDb.updateCustomer "2000" { notes := .str "" }).1.map (fun c => c.notes)
          = some (.str "")
      ∧ (CustomerService.updateCustomer ⟨[bobSmith]⟩ "2000" { notes := .str "" }).1.map
          (fun c => c.notes) = some (.str "likes fades") := by
  decide

/-- C8, amended: for every customer and partial, the name, phoneNumber and
preferredStyles that the relational `updateCustomer` writes are the ones the file-backed
`updateCustomer` assigns; the notes agree as well when the partial's notes is `undefined`
(omitted) or truthy; and whenever the partial's notes is not `undefined`, falsy values
included, the relational backend writes the partial's notes. -/
theorem updateValues_agree_except_falsy_notes (customer : Customer)
    (updatedInfo : UpdatedInfo) :
    (CustomerServiceDB.updateValues customer updatedInfo).name
        = (CustomerService.assignedValues customer updatedInfo).name
      ∧ (CustomerServiceDB.updateValues customer updatedInfo).phoneNumber
        = (CustomerService.assignedValues customer updatedInfo).phoneNumber
      ∧ (CustomerServiceDB.updateValues customer updatedInfo).preferredStyles
        = (CustomerService.assignedValues customer updatedInfo).preferredStyles
      ∧ ((updatedInfo.notes = .undefined ∨ updatedInfo.notes.truthy = true) →
          CustomerServiceDB.updateValues customer updatedInfo
            = CustomerService.assignedValues customer updatedInfo)
      ∧ (updatedInfo.notes ≠ .undefined →
          (CustomerServiceDB.updateValues customer updatedInfo).notes = updatedInfo.notes) := by
  simp only [CustomerServiceDB.updateValues, CustomerService.assignedValues, assignFields_eq,
    JsVal.or]
  refine ⟨trivial, trivial, trivial, ?_, ?_⟩
  · rintro (h | h)
    · simp [h, JsVal.truthy]
    · have hne : updatedInfo.notes ≠ .undefined := by
        intro h0; rw [h0] at h; simp [JsVal.truthy] at h
      simp [h, hne]
  · intro hne
    simp [hne]

/-- C8 amended, on concrete partials: one with truthy notes, where the two backends
agree on all four values, and one with notes `null`, which the relational backend
writes. -/
theorem updateValues_agree_except_falsy_notes_witness :
    CustomerServiceDB.updateValues bobSmith { name := .str "", notes := .str "no fades" }
        = CustomerService.assignedValues bobSmith { name := .str "", notes := .str "no fades" }
      ∧ (CustomerServiceDB.updateValues bobSmith { notes := .null }).notes = .null :=
  ⟨(updateValues_agree_except_falsy_notes bobSmith
      { name := .str "", notes := .str "no fades" }).2.2.2.1 (Or.inr (by decide)),
   (updateValues_agree_except_falsy_notes bobSmith { notes := .null }).2.2.2.2 (by decide)⟩

/-! ## Recording a visit -/

/-- C9: when `getCustomerById` resolves the id to `c`, the file-backed `addServiceVisit`
returns a visit dated with the clock value, carrying the given servicesTaken and notes
(the declared defaults `[]` and `''` standing in for `undefined`); the list was
`pre ++ c :: post` and becomes `pre ++ c2 :: post`, where `c2` is `c` with that one visit
appended at the end of its serviceHistory, so the history grows by exactly 1 and every
other customer is unchanged. -/
theorem addServiceVisit_appends_one_visit (this : CustomerService) (now : Nat) (id : String)
    (servicesTaken notes : JsVal) (c : Customer)
    (hexists : this.getCustomerById id = some c) :
    ∃ (pre post : List Customer) (visit : ServiceVisit),
      this.customers = pre ++ c :: post
      ∧ (∀ x ∈ pre, x.id ≠ id)
      ∧ visit = { date := .valid now
                  servicesTaken := servicesTaken.withDefault (.arr [])
                  notes := notes.withDefault (.str "") }
      ∧ (servicesTaken ≠ .undefined → visit.servicesTaken = servicesTaken)
      ∧ (notes ≠ .undefined → visit.notes = notes)
      ∧ this.addServiceVisit now id servicesTaken notes
          = (some visit,
              ⟨pre ++ { c with serviceHistory := c.serviceHistory ++ [visit] } :: post⟩)
      ∧ (this.addServiceVisit now id servicesTaken notes).2.getCustomerById id
          = some { c with serviceHistory := c.serviceHistory ++ [visit] }
      ∧ (c.serviceHistory ++ [visit]).length = c.serviceHistory.length + 1 := by
  obtain ⟨pre, post, hsplit, hc, hpre⟩ := getCustomerById_split this id c hexists
  have hthis : this = ⟨pre ++ c :: post⟩ := by
    cases this; simp_all
  subst hthis
  have h2 : (JsVal.str "") ≠ JsVal.undefined := by decide
  have hrun := addServiceVisit_at_split pre post c now id servicesTaken notes hpre hc
  simp only [ServiceVisit.new, withDefault_idem _ _ h2, Customer.addServiceVisit] at hrun
  refine ⟨pre, post, _, rfl, hpre, rfl, ?_, ?_, hrun, ?_, by simp⟩
  · intro h; simp [JsVal.withDefault, h]
  · intro h; simp [JsVal.withDefault, h]
  · rw [hrun]
    exact getCustomerById_at_split pre post _ id hpre hc

/-- C9, on a concrete store: `addServiceVisit("2000", ["Haircut","Beard Trim"], "regular")`
at clock value 9000 for Bob Smith. -/
theorem addServiceVisit_appends_one_visit_witness :
    ∃ (pre post : List Customer) (visit : ServiceVisit),
      [janeDoe, bobSmith] = pre ++ bobSmith :: post
      ∧ (∀ x ∈ pre, x.id ≠ "2000")
      ∧ visit = { date := .valid 9000
                  servicesTaken := .arr ["Haircut", "Beard Trim"]
                  notes := .str "regular" }
      ∧ (JsVal.arr ["Haircut", "Beard Trim"] ≠ .undefined →
          visit.servicesTaken = .arr ["Haircut", "Beard Trim"])
      ∧ (JsVal.str "regular" ≠ .undefined → visit.notes = .str "regular")
      ∧ addServiceVisit ⟨[janeDoe, bobSmith]⟩ 9000 "2000"
            (.arr ["Haircut", "Beard Trim"]) (.str "regular")
          = (some visit,
              ⟨pre ++ { bobSmith with
                        serviceHistory := bobSmith.serviceHistory ++ [visit] } :: post⟩)
      ∧ (addServiceVisit ⟨[janeDoe, bobSmith]⟩ 9000 "2000"
            (.arr ["Haircut", "Beard Trim"]) (.str "regular")).2.getCustomerById "2000"
          = some { bobSmith with serviceHistory := bobSmith.serviceHistory ++ [visit] }
      ∧ (bobSmith.serviceHistory ++ [visit]).length = bobSmith.serviceHistory.length + 1 :=
  addServiceVisit_appends_one_visit ⟨[janeDoe, bobSmith]⟩ 9000 "2000"
    (.arr ["Haircut", "Beard Trim"]) (.str "regular") bobSmith (by decide)

/-- C10: when no customer has the id, the file-backed `addServiceVisit` returns null and
the customer list, every serviceHistory included, is unchanged. -/
theorem addServiceVisit_absent_unchanged (this : CustomerService) (now : Nat) (id : String)
    (servicesTaken notes : JsVal) (habsent : ∀ x ∈ this.customers, x.id ≠ id) :
    this.addServiceVisit now id servicesTaken notes = (none, this) := by
  have hget : this.getCustomerById id = none := by
    unfold getCustomerById
    rw [List.find?_eq_none]
    intro x hx
    simpa using habsent x hx
  simp [addServiceVisit, hget]

/-- C10, on a concrete store: a visit for the id "3000", which neither Jane Doe nor Bob
Smith has. -/
theorem addServiceVisit_absent_unchanged_witness :
    addServiceVisit ⟨[janeDoe, bobSmith]⟩ 9000 "3000" (.arr ["Haircut"]) (.str "regular")
      = (none, ⟨[janeDoe, bobSmith]⟩) :=
  addServiceVisit_absent_unchanged ⟨[janeDoe, bobSmith]⟩ 9000 "3000" (.arr ["Haircut"])
    (.str "regular") (by decide)

/-! ## Deleting a customer -/

/-- C11: the file-backed `deleteCustomer(id)` returns true exactly when some customer had
the id; afterwards no customer of `getAllCustomers()` has the id, the list is the
previous list restricted to the customers with a different id, in their previous order,
and when the call returns false the store is unchanged. -/
theorem deleteCustomer_removes_exactly_id (this : CustomerService) (id : String) :
    ((this.deleteCustomer id).1 = true ↔ ∃ c ∈ this.customers, c.id = id)
      ∧ (∀ c ∈ (this.deleteCustomer id).2.getAllCustomers, c.id ≠ id)
      ∧ (∀ c, c ∈ (this.deleteCustomer id).2.getAllCustomers ↔ c ∈ this.customers ∧ c.id ≠ id)
      ∧ (this.deleteCustomer id).2.getAllCustomers
          = this.customers.filter (fun c => decide (c.id ≠ id))
      ∧ (this.deleteCustomer id).2.getAllCustomers.Sublist this.customers
      ∧ ((this.deleteCustomer id).1 = false → (this.deleteCustomer id).2 = this) := by
  have hlist : (this.deleteCustomer id).2.getAllCustomers
      = this.customers.filter (fun c => decide (c.id ≠ id)) := by
    unfold deleteCustomer getAllCustomers
    have hp : (fun customer : Customer => customer.id != id)
        = (fun c => decide (c.id ≠ id)) := by
      funext c
      by_cases h : c.id = id <;> simp [h]
    simp only [hp]
    split <;> rfl
  have hret : (this.deleteCustomer id).1 = true ↔ ∃ c ∈ this.customers, c.id = id := by
    unfold deleteCustomer
    simp only []
    by_cases hlen : (this.customers.filter (fun customer => customer.id != id)).length
        = this.customers.length
    · have hall := List.filter_length_eq_length.mp hlen
      simp only [hlen, bne_self_eq_false, Bool.false_eq_true, if_false, false_iff]
      rintro ⟨c, hc, hid⟩
      have := hall c hc
      simp [hid] at this
    · have hex : ¬ ∀ a ∈ this.customers, (a.id != id) = true :=
        fun hall => hlen (List.filter_length_eq_length.mpr hall)
      have hne : ((this.customers.filter (fun customer => customer.id != id)).length
          != this.customers.length) = true := by simpa using hlen
      simp only [hne, if_true, true_iff]
      by_contra hnone
      apply hex
      intro a ha
      simp only [bne_iff_ne, ne_eq]
      intro hid
      exact hnone ⟨a, ha, hid⟩
  refine ⟨hret, ?_, ?_, hlist, ?_, ?_⟩
  · intro c hc
    rw [hlist] at hc
    simpa using (List.mem_filter.mp hc).2
  · intro c
    rw [hlist]
    simp [List.mem_filter]
  · rw [hlist]
    exact List.filter_sublist _
  · intro hfalse
    have hnone : ¬ ∃ c ∈ this.customers, c.id = id := by
      intro hex
      have := hret.mpr hex
      rw [hfalse] at this
      exact Bool.false_ne_true this
    have hself : this.customers.filter (fun c => decide (c.id ≠ id)) = this.customers := by
      rw [List.filter_eq_self]
      intro a ha
      simp only [ne_eq, decide_eq_true_eq]
      intro hid
      exact hnone ⟨a, ha, hid⟩
    have h2 : (this.deleteCustomer id).2.customers = this.customers := by
      have := hlist
      unfold getAllCustomers at this
      rw [this, hself]
    cases hd : (this.deleteCustomer id).2
    cases this
    simp_all

/-- C11, on a concrete store: deleting the id "3000", which neither Jane Doe nor Bob
Smith has, returns false and leaves the store as it was. -/
theorem deleteCustomer_removes_exactly_id_witness :
    (deleteCustomer ⟨[janeDoe, bobSmith]⟩ "3000").2 = ⟨[janeDoe, bobSmith]⟩ :=
  (deleteCustomer_removes_exactly_id ⟨[janeDoe, bobSmith]⟩ "3000").2.2.2.2.2 (by decide)

/-! ## Searching by name -/

/-- A filter whose callback returns a boolean for every element does not throw and is
the plain filter. -/
theorem filterThrowing_eq_filter (p : Customer → Option Bool) (q : Customer → Bool)
    (l : List Customer) (h : ∀ c ∈ l, p c = some (q c)) :
    filterThrowing p l = some (l.filter q) := by
  induction l with
  | nil => rfl
  | cons a as ih =>
    have ha : p a = some (q a) := h a (by simp)
    have ih2 := ih (fun c hc => h c (by simp [hc]))
    simp only [filterThrowing, ha, ih2]
    cases hq : q a <;> simp [List.filter_cons, hq]

/-- A filter whose callback throws on some element throws. -/
theorem filterThrowing_throws (p : Customer → Option Bool) (l : List Customer)
    (c : Customer) (hc : c ∈ l) (h : p c = none) : filterThrowing p l = none := by
  induction l with
  | nil => simp at hc
  | cons a as ih =>
    rcases List.mem_cons.mp hc with rfl | hmem
    · simp [filterThrowing, h]
    · have ih2 := ih hmem
      simp only [filterThrowing, ih2]
      cases p a <;> rfl

/-- On a store whose names are all strings, `searchCustomersByName` returns the filter
of the stored list by `nameContains`. -/
theorem searchCustomersByName_eq_filter (rt : JsRuntime) (this : CustomerService)
    (term : String) (hnames : namesAreStrings this.customers) :
    this.searchCustomersByName rt term
      = some (this.customers.filter (nameContains rt term)) := by
  unfold searchCustomersByName
  apply filterThrowing_eq_filter
  intro c hc
  obtain ⟨s, hs⟩ := hnames c hc
  simp [nameIncludes, nameContains, hs]

/-- On a store that holds a customer whose name is not a string, the callback of
`searchCustomersByName` raises a TypeError and the call throws, in every runtime and
for every term. -/
theorem searchCustomersByName_throws (rt : JsRuntime) (this : CustomerService)
    (term : String) (c : Customer) (hc : c ∈ this.customers)
    (hname : ∀ s, c.name ≠ .str s) :
    this.searchCustomersByName rt term = none := by
  unfold searchCustomersByName
  apply filterThrowing_throws _ _ c hc
  cases h : c.name with
  | str s => exact absurd h (hname s)
  | _ => rfl

/-- In every runtime the term "jan" finds "Jane Doe" and leaves out "Bob Smith", and so
does the term "JAN". -/
theorem searchCustomersByName_jan (rt : JsRuntime) :
    searchCustomersByName rt ⟨[janeDoe, bobSmith]⟩ "jan" = some [janeDoe]
      ∧ searchCustomersByName rt ⟨[janeDoe, bobSmith]⟩ "JAN" = some [janeDoe] := by
  rw [searchCustomersByName_ascii rt _ "jan" (by decide) (by decide),
    searchCustomersByName_ascii rt _ "JAN" (by decide) (by decide)]
  decide

/-- C12, as stated, fails on a store that holds a name which is not a string.  Both
`POST /api/customers` handlers accept the name 5 (it is truthy) and answer 201; on the
store this leaves, `searchCustomersByName("jan")` calls `toLowerCase` on the number and
throws a TypeError instead of returning a list. -/
theorem searchCustomersByName_throws_after_number_name :
    (Api.postCustomers ⟨[janeDoe]⟩ 3000 { name := .num 5, phoneNumber := .str "555-0142" }).1.status
        = 201
      ∧ (Server.postCustomers ⟨[janeDoe]⟩ 3000
          { name := .num 5, phoneNumber := .str "555-0142" }).1.status = 201
      ∧ (Api.postCustomers ⟨[janeDoe]⟩ 3000
          { name := .num 5, phoneNumber := .str "555-0142" }).2.customers.map (fun c => c.name)
          = [.str "Jane Doe", .num 5]
      ∧ searchCustomersByName sampleRuntime
          (Api.postCustomers ⟨[janeDoe]⟩ 3000
            { name := .num 5, phoneNumber := .str "555-0142" }).2 "jan" = none
      ∧ searchCustomersByName sampleRuntime
          (Server.postCustomers ⟨[janeDoe]⟩ 3000
            { name := .num 5, phoneNumber := .str "555-0142" }).2 "jan" = none := by
  decide

/-- C12, amended: on a store in which every customer name is a string, in every runtime,
the file-backed `searchCustomersByName(term)` returns exactly the customers whose
lower-cased name contains the lower-cased term as a substring: the result is the stored
list filtered by that test, so it holds each matching customer once, in stored order,
and no other. -/
theorem searchCustomersByName_exact (rt : JsRuntime) (this : CustomerService)
    (term : String) (hnames : namesAreStrings this.customers) :
    ∃ r : List Customer,
      this.searchCustomersByName rt term = some r
      ∧ r = this.customers.filter (nameContains rt term)
      ∧ (∀ c, c ∈ r ↔ c ∈ this.customers ∧ nameContains rt term c = true)
      ∧ r.Sublist this.customers := by
  refine ⟨_, searchCustomersByName_eq_filter rt this term hnames, rfl, ?_, ?_⟩
  · intro c
    simp [List.mem_filter]
  · exact List.filter_sublist _

/-- C12 amended, on a concrete store: the term "jan" returns the list with "Jane Doe"
alone, leaving out "Bob Smith". -/
theorem searchCustomersByName_exact_witness :
    searchCustomersByName sampleRuntime ⟨[janeDoe, bobSmith]⟩ "jan" = some [janeDoe] := by
  obtain ⟨r, hr, hfilter, -, -⟩ :=
    searchCustomersByName_exact sampleRuntime ⟨[janeDoe, bobSmith]⟩ "jan" (by
      intro c hc
      simp only [List.mem_cons, List.mem_singleton, List.not_mem_nil, or_false] at hc
      rcases hc with rfl | rfl
      · exact ⟨"Jane Doe", rfl⟩
      · exact ⟨"Bob Smith", rfl⟩)
  rw [hr, hfilter]
  decide

/-- C18, as stated, fails on a store that holds a name which is not a string.  The
handler of `src/server.js` accepts the name 5 on the empty store and answers 201;
afterwards `getAllCustomers()` returns that one customer while
`searchCustomersByName("")` throws a TypeError. -/
theorem searchCustomersByName_empty_term_throws_after_number_name :
    (Server.postCustomers CustomerService.empty 1000
        { name := .num 5, phoneNumber := .str "555-0100" }).1.status = 201
      ∧ (Server.postCustomers CustomerService.empty 1000
          { name := .num 5, phoneNumber := .str "555-0100" }).2.getAllCustomers.length = 1
      ∧ searchCustomersByName sampleRuntime
          (Server.postCustomers CustomerService.empty 1000
            { name := .num 5, phoneNumber := .str "555-0100" }).2 "" = none := by
  decide

/-- C18, amended: on a store in which every customer name is a string, in every runtime,
the file-backed `searchCustomersByName("")` returns every customer, the same list as
`getAllCustomers()`. -/
theorem searchCustomersByName_empty_term (rt : JsRuntime) (this : CustomerService)
    (hnames : namesAreStrings this.customers) :
    this.searchCustomersByName rt "" = some this.getAllCustomers := by
  rw [searchCustomersByName_eq_filter rt this "" hnames]
  unfold getAllCustomers
  congr 1
  rw [List.filter_eq_self]
  intro c hc
  obtain ⟨s, hs⟩ := hnames c hc
  have hempty : (rt.toLowerCase "").data = [] := rt.toLowerCase_ascii "" rfl
  simp [nameContains, hs, hempty]

/-- C18 amended, on a concrete store: the empty term returns Jane Doe and Bob Smith, in
stored order. -/
theorem searchCustomersByName_empty_term_witness :
    searchCustomersByName sampleRuntime ⟨[janeDoe, bobSmith]⟩ "" = some [janeDoe, bobSmith] :=
  searchCustomersByName_empty_term sampleRuntime ⟨[janeDoe, bobSmith]⟩ (by
    intro c hc
    simp only [List.mem_cons, List.mem_singleton, List.not_mem_nil, or_false] at hc
    rcases hc with rfl | rfl
    · exact ⟨"Jane Doe", rfl⟩
    · exact ⟨"Bob Smith", rfl⟩)

/-! ## The visit route -/

/-- The visit handlers of `src/server.js` and `src/functions/api.js` are the same code. -/
theorem Server.postVisits_eq_api : Server.postVisits = Api.postVisits := rfl

/-- C17: for every store and request to `POST /api/customers/:id/visits`, in both entry
points: the status is 400 exactly when `servicesTaken` is not an array, and then
`addServiceVisit` is not invoked and the store is unchanged; with an array the handler
answers 404 when no customer has the id and 201 with the visit created by
`addServiceVisit` when one does; the empty array is accepted. -/
theorem postVisits_validates_list (customerService : CustomerService) (now : Nat)
    (id : String) (servicesTaken notes : JsVal) :
    Server.postVisits customerService now id servicesTaken notes
        = Api.postVisits customerService now id servicesTaken notes
      ∧ ((Api.postVisits customerService now id servicesTaken notes).1.status = 400
          ↔ servicesTaken.isArray = false)
      ∧ (servicesTaken.isArray = false →
          Api.postVisits customerService now id servicesTaken notes
            = (⟨400, .message "Services taken must be an array"⟩, customerService))
      ∧ (servicesTaken.isArray = true → (∀ x ∈ customerService.customers, x.id ≠ id) →
          Api.postVisits customerService now id servicesTaken notes
            = (⟨404, .message "Customer not found"⟩, customerService))
      ∧ (servicesTaken.isArray = true →
          ∀ c, customerService.getCustomerById id = some c →
            ∃ visit s,
              customerService.addServiceVisit now id servicesTaken notes = (some visit, s)
              ∧ Api.postVisits customerService now id servicesTaken notes
                  = (⟨201, .visit visit⟩, s))
      ∧ (Api.postVisits customerService now id (.arr []) notes).1.status ≠ 400 := by
  have harr : ∀ (xs : List String),
      ((Api.postVisits customerService now id (.arr xs) notes).1.status = 404
        ∨ (Api.postVisits customerService now id (.arr xs) notes).1.status = 201) := by
    intro xs
    unfold Api.postVisits
    simp only [JsVal.truthy, JsVal.isArray, Bool.not_true, Bool.or_self, Bool.false_eq_true,
      if_false]
    cases hget : customerService.getCustomerById id with
    | none => simp [addServiceVisit, hget]
    | some c => simp [addServiceVisit, hget]
  refine ⟨rfl, ?_, ?_, ?_, ?_, ?_⟩
  · cases servicesTaken with
    | arr xs =>
      rcases harr xs with h | h <;> simp [h, JsVal.isArray]
    | undefined => simp [Api.postVisits, JsVal.truthy, JsVal.isArray]
    | null => simp [Api.postVisits, JsVal.truthy, JsVal.isArray]
    | bool b => simp [Api.postVisits, JsVal.isArray]
    | num n => simp [Api.postVisits, JsVal.isArray]
    | nan => simp [Api.postVisits, JsVal.isArray]
    | infinity negative => simp [Api.postVisits, JsVal.isArray]
    | str s => simp [Api.postVisits, JsVal.isArray]
  · intro hnot
    simp [Api.postVisits, hnot]
  · intro hyes habsent
    have htruthy : servicesTaken.truthy = true := by
      cases servicesTaken <;> simp_all [JsVal.isArray, JsVal.truthy]
    have hrun := addServiceVisit_absent_unchanged_aux customerService now id servicesTaken notes
      habsent
    simp [Api.postVisits, hyes, htruthy, hrun]
  · intro hyes c hexists
    have htruthy : servicesTaken.truthy = true := by
      cases servicesTaken <;> simp_all [JsVal.isArray, JsVal.truthy]
    obtain ⟨pre, post, hsplit, hc, hpre⟩ := getCustomerById_split customerService id c hexists
    have hthis : customerService = ⟨pre ++ c :: post⟩ := by
      cases customerService; simp_all
    subst hthis
    have hrun := addServiceVisit_at_split pre post c now id servicesTaken notes hpre hc
    refine ⟨_, _, hrun, ?_⟩
    simp [Api.postVisits, hyes, htruthy, hrun]
  · rcases harr [] with h | h <;> simp [h]

/-- C17, on a concrete store: a string instead of a list is answered 400, a list for the
unknown id "3000" is answered 404, and the empty list for Bob Smith is answered 201 with
the visit that `addServiceVisit` created. -/
theorem postVisits_validates_list_witness :
    Api.postVisits ⟨[janeDoe, bobSmith]⟩ 9000 "2000" (.str "Haircut") (.str "regular")
        = (⟨400, .message "Services taken must be an array"⟩, ⟨[janeDoe, bobSmith]⟩)
      ∧ Api.postVisits ⟨[janeDoe, bobSmith]⟩ 9000 "3000" (.arr ["Haircut"]) (.str "regular")
        = (⟨404, .message "Customer not found"⟩, ⟨[janeDoe, bobSmith]⟩)
      ∧ ∃ visit s,
          addServiceVisit ⟨[janeDoe, bobSmith]⟩ 9000 "2000" (.arr []) (.str "regular")
            = (some visit, s)
          ∧ Api.postVisits ⟨[janeDoe, bobSmith]⟩ 9000 "2000" (.arr []) (.str "regular")
            = (⟨201, .visit visit⟩, s) :=
  ⟨(postVisits_validates_list ⟨[janeDoe, bobSmith]⟩ 9000 "2000" (.str "Haircut")
      (.str "regular")).2.2.1 (by decide),
   (postVisits_validates_list ⟨[janeDoe, bobSmith]⟩ 9000 "3000" (.arr ["Haircut"])
      (.str "regular")).2.2.2.1 (by decide) (by decide),
   (postVisits_validates_list ⟨[janeDoe, bobSmith]⟩ 9000 "2000" (.arr [])
      (.str "regular")).2.2.2.2.1 (by decide) bobSmith (by decide)⟩

/-! ## Service history is append-only -/

theorem historyExtends_refl (c : Customer) : historyExtends c c :=
  ⟨rfl, List.prefix_refl _⟩

theorem historyExtends_list_self (l : List Customer) : List.Forall₂ historyExtends l l :=
  List.forall₂_same.mpr (fun x _ => historyExtends_refl x)

theorem historyExtends_list_at_split (pre post : List Customer) (c c2 : Customer)
    (h : historyExtends c c2) :
    List.Forall₂ historyExtends (pre ++ c :: post) (pre ++ c2 :: post) :=
  List.rel_append (historyExtends_list_self pre)
    (List.Forall₂.cons h (historyExtends_list_self post))

/-- Customers matched position by position with the list afterwards are all present
afterwards. -/
theorem filter_presentAfter_of_matched (extra : List Customer) {before after2 : List Customer}
    (h : List.Forall₂ historyExtends before after2) :
    before.filter (presentAfter (after2 ++ extra)) = before := by
  rw [List.filter_eq_self]
  induction h with
  | nil => simp
  | cons hab _ ih =>
    intro x hx
    rcases List.mem_cons.mp hx with rfl | hmem
    · simp [presentAfter, hab.1]
    · have := ih x hmem
      simp only [presentAfter, List.any_eq_true] at this ⊢
      obtain ⟨y, hy, hyx⟩ := this
      exact ⟨y, by simp [hy], hyx⟩

/-- Lookup by id on two lists matched position by position gives matched customers. -/
theorem find_of_matched (id : String) (extra : List Customer) {before after2 : List Customer}
    (h : List.Forall₂ historyExtends before after2) (c c2 : Customer)
    (h1 : before.find? (fun x => x.id == id) = some c)
    (h2 : (after2 ++ extra).find? (fun x => x.id == id) = some c2) :
    historyExtends c c2 := by
  induction h with
  | nil => simp at h1
  | @cons a b l1 l2 hab _ ih =>
    by_cases ha : a.id = id
    · have hb : b.id = id := hab.1.trans ha
      rw [List.find?_cons_of_pos _ (by simpa using ha)] at h1
      rw [List.cons_append, List.find?_cons_of_pos _ (by simpa using hb)] at h2
      cases h1; cases h2
      exact hab
    · have hb : ¬ b.id = id := fun hb => ha (hab.1.symm.trans hb)
      rw [List.find?_cons_of_neg _ (by simpa using ha)] at h1
      rw [List.cons_append, List.find?_cons_of_neg _ (by simpa using hb)] at h2
      exact ih h1 h2

theorem find_filter_other_id (l : List Customer) (i d : String) (h : i ≠ d) :
    (l.filter (fun c => c.id != d)).find? (fun c => c.id == i)
      = l.find? (fun c => c.id == i) := by
  induction l with
  | nil => rfl
  | cons a as ih =>
    by_cases had : a.id = d
    · have hai : ¬ a.id = i := fun hai => h (hai.symm.trans had)
      rw [List.filter_cons_of_neg (by simpa using had),
        List.find?_cons_of_neg _ (by simpa using hai)]
      exact ih
    · rw [List.filter_cons_of_pos (by simpa using had)]
      by_cases hai : a.id = i
      · rw [List.find?_cons_of_pos _ (by simpa using hai),
          List.find?_cons_of_pos _ (by simpa using hai)]
      · rw [List.find?_cons_of_neg _ (by simpa using hai),
          List.find?_cons_of_neg _ (by simpa using hai)]
        exact ih

theorem find_filter_same_id (l : List Customer) (d : String) :
    (l.filter (fun c => c.id != d)).find? (fun c => c.id == d) = none := by
  rw [List.find?_eq_none]
  intro x hx
  have := (List.mem_filter.mp hx).2
  simpa using this

theorem filter_presentAfter_delete (l : List Customer) (d : String) :
    l.filter (presentAfter (l.filter (fun c => c.id != d))) = l.filter (fun c => c.id != d) := by
  apply List.filter_congr
  intro x hx
  by_cases hxd : x.id = d
  · have hfalse : presentAfter (l.filter (fun c => c.id != d)) x = false := by
      rw [Bool.eq_false_iff]
      intro htrue
      simp only [presentAfter, List.any_eq_true, List.mem_filter] at htrue
      obtain ⟨y, ⟨_, hyd⟩, hyx⟩ := htrue
      have h1 : y.id = x.id := by simpa using hyx
      have h2 : y.id ≠ d := by simpa using hyd
      exact h2 (h1.trans hxd)
    simp [hfalse, hxd]
  · have htrue : presentAfter (l.filter (fun c => c.id != d)) x = true := by
      simp only [presentAfter, List.any_eq_true, List.mem_filter]
      exact ⟨x, ⟨hx, by simpa using hxd⟩, by simp⟩
    simp [htrue, hxd]

/-- A call that leaves a list matched position by position with the old one, followed by
new customers, extends every history. -/
theorem appendOnly_of_matched (this after : CustomerService) (after2 extra : List Customer)
    (hafter : after.customers = after2 ++ extra)
    (h : List.Forall₂ historyExtends this.customers after2) :
    (∃ kept2 extra2, after.customers = kept2 ++ extra2
        ∧ List.Forall₂ historyExtends
            (this.customers.filter (presentAfter after.customers)) kept2)
      ∧ (∀ id c c2, this.getCustomerById id = some c → after.getCustomerById id = some c2 →
          c.serviceHistory <+: c2.serviceHistory) := by
  constructor
  · refine ⟨after2, extra, hafter, ?_⟩
    rw [hafter, filter_presentAfter_of_matched extra h]
    exact h
  · intro id c c2 h1 h2
    unfold getCustomerById at h1 h2
    rw [hafter] at h2
    exact (find_of_matched id extra h c c2 h1 h2).2

/-- C13: service history is append-only under every mutating call of the file-backed
service.  The customers of the old list whose id is still present afterwards are
matched, in order, with the first customers of the new list, each with the same id and
a history that starts with its whole old history (the rest of the new list is newly
added); and whenever `getCustomerById` resolves an id before and after the call, the old
serviceHistory is a prefix of the new one. -/
theorem serviceHistory_append_only (this : CustomerService) (op : Op) :
    (∃ kept2 extra, (op.apply this).customers = kept2 ++ extra
        ∧ List.Forall₂ historyExtends
            (this.customers.filter (presentAfter (op.apply this).customers)) kept2)
      ∧ (∀ id c c2, this.getCustomerById id = some c →
          (op.apply this).getCustomerById id = some c2 →
          c.serviceHistory <+: c2.serviceHistory) := by
  cases op with
  | addCustomer now name phoneNumber preferredStyles notes =>
    exact appendOnly_of_matched this _ this.customers [_] rfl (historyExtends_list_self _)
  | updateCustomer id updatedInfo =>
    cases hget : this.getCustomerById id with
    | none =>
      have hrun := updateCustomer_absent this id updatedInfo hget
      have hafter : Op.apply this (.updateCustomer id updatedInfo) = this := by
        simp [Op.apply, hrun]
      rw [hafter]
      exact appendOnly_of_matched this this this.customers [] (by simp)
        (historyExtends_list_self _)
    | some c =>
      obtain ⟨pre, post, hsplit, hc, hpre⟩ := getCustomerById_split this id c hget
      have hthis : this = ⟨pre ++ c :: post⟩ := by
        cases this; simp_all
      subst hthis
      have hrun := updateCustomer_at_split pre post c id updatedInfo hpre hc
      have hafter : (Op.apply ⟨pre ++ c :: post⟩ (.updateCustomer id updatedInfo)).customers
          = (pre ++ assignFields c updatedInfo :: post) ++ [] := by
        simp [Op.apply, hrun]
      exact appendOnly_of_matched _ _ _ [] hafter
        (historyExtends_list_at_split pre post c _
          ⟨by simp [assignFields_eq], by simp [assignFields_eq]⟩)
  | addServiceVisit now id servicesTaken notes =>
    cases hget : this.getCustomerById id with
    | none =>
      have hafter : Op.apply this (.addServiceVisit now id servicesTaken notes) = this := by
        simp [Op.apply, addServiceVisit, hget]
      rw [hafter]
      exact appendOnly_of_matched this this this.customers [] (by simp)
        (historyExtends_list_self _)
    | some c =>
      obtain ⟨pre, post, hsplit, hc, hpre⟩ := getCustomerById_split this id c hget
      have hthis : this = ⟨pre ++ c :: post⟩ := by
        cases this; simp_all
      subst hthis
      have hrun := addServiceVisit_at_split pre post c now id servicesTaken notes hpre hc
      have hafter :
          (Op.apply ⟨pre ++ c :: post⟩ (.addServiceVisit now id servicesTaken notes)).customers
          = (pre ++ c.addServiceVisit
              (ServiceVisit.new (.valid now) servicesTaken (notes.withDefault (.str ""))) :: post)
            ++ [] := by
        simp [Op.apply, hrun]
      exact appendOnly_of_matched _ _ _ [] hafter
        (historyExtends_list_at_split pre post c _
          ⟨by simp [Customer.addServiceVisit], by simp [Customer.addServiceVisit]⟩)
  | deleteCustomer d =>
    have hafter : (Op.apply this (.deleteCustomer d)).customers
        = this.customers.filter (fun c => c.id != d) := by
      simp only [Op.apply, deleteCustomer]
      split <;> rfl
    constructor
    · refine ⟨this.customers.filter (fun c => c.id != d), [], by rw [hafter]; simp, ?_⟩
      rw [hafter, filter_presentAfter_delete]
      exact historyExtends_list_self _
    · intro id c c2 h1 h2
      unfold getCustomerById at h1 h2
      rw [hafter] at h2
      by_cases hid : id = d
      · subst hid
        rw [find_filter_same_id] at h2
        cases h2
      · rw [find_filter_other_id _ _ _ hid, h1] at h2
        cases h2
        exact List.prefix_refl _

/-- C13, on a concrete store: after `addServiceVisit` for Bob Smith his one recorded
visit is still the first entry of his history, and after `deleteCustomer` of Jane Doe
his history is as before. -/
theorem serviceHistory_append_only_witness :
    bobSmith.serviceHistory
        <+: bobSmith.serviceHistory ++
          [{ date := .valid 9000, servicesTaken := .arr ["Beard Trim"], notes := .str "" }]
      ∧ bobSmith.serviceHistory <+: bobSmith.serviceHistory :=
  ⟨(serviceHistory_append_only ⟨[janeDoe, bobSmith]⟩
      (.addServiceVisit 9000 "2000" (.arr ["Beard Trim"]) .undefined)).2 "2000" bobSmith
      { id := "2000", name := .str "Bob Smith", phoneNumber := .str "555-0199",
        preferredStyles := .arr ["Fade"],
        serviceHistory := bobSmith.serviceHistory ++
          [{ date := .valid 9000, servicesTaken := .arr ["Beard Trim"], notes := .str "" }],
        notes := .str "likes fades" }
      (by decide) (by decide),
   (serviceHistory_append_only ⟨[janeDoe, bobSmith]⟩ (.deleteCustomer "1000")).2 "2000"
      bobSmith bobSmith (by decide) (by decide)⟩

/-! ## Writing the data file and loading it again -/

theorem withDefault_of_ne_undefined (v d : JsVal) (h : v ≠ .undefined) :
    v.withDefault d = v := by
  simp [JsVal.withDefault, h]

theorem withDefault_ne_undefined (v d : JsVal) (hd : d ≠ .undefined) :
    v.withDefault d ≠ .undefined := by
  unfold JsVal.withDefault
  by_cases h : v = .undefined <;> simp [h, hd]

theorem truthy_ne_undefined (v : JsVal) (h : v.truthy = true) : v ≠ .undefined := by
  intro h0
  rw [h0] at h
  simp [JsVal.truthy] at h

theorem jsonRoundTrip_of_finite (v : JsVal) (h : v.finite = true) : v.jsonRoundTrip = v := by
  cases v <;> simp_all [JsVal.finite, JsVal.jsonRoundTrip]

/-- A constructed, writable visit written and read back is the same visit. -/
theorem visit_round_trip (rt : JsRuntime) (visit : ServiceVisit)
    (h : visit.constructed) (hw : visit.writable rt = true) :
    ServiceVisit.new (rt.newDate (ServiceVisit.toData rt visit).date)
        (ServiceVisit.toData rt visit).servicesTaken (ServiceVisit.toData rt visit).notes
      = visit := by
  obtain ⟨date, servicesTaken, notes⟩ := visit
  obtain ⟨h1, h2⟩ := h
  simp only [ServiceVisit.writable, Bool.and_eq_true] at hw
  obtain ⟨⟨hf1, hf2⟩, hdate⟩ := hw
  cases date with
  | invalid => simp at hdate
  | valid time =>
    have hparse : rt.parseDate (rt.toISOString time) = .valid time := by simpa using hdate
    simp only [ServiceVisit.new, ServiceVisit.toData, JsRuntime.dateToJSON, JsRuntime.newDate,
      hparse, jsonRoundTrip_of_finite _ hf1, jsonRoundTrip_of_finite _ hf2,
      withDefault_of_ne_undefined _ _ h1, withDefault_of_ne_undefined _ _ h2]

/-- A constructed, writable customer written and read back is the same customer. -/
theorem customer_round_trip (rt : JsRuntime) (customer : Customer)
    (h : customer.constructed) (hw : customer.writable rt = true) :
    customerOfData rt (Customer.toData rt customer) = customer := by
  obtain ⟨hstyles, hnotes, hvisits⟩ := h
  simp only [Customer.writable, Bool.and_eq_true, List.all_eq_true] at hw
  obtain ⟨⟨⟨⟨hf1, hf2⟩, hf3⟩, hf4⟩, hwv⟩ := hw
  have hhist : (customer.serviceHistory.map (ServiceVisit.toData rt)).map
      (fun visitData => ServiceVisit.new (rt.newDate visitData.date)
        visitData.servicesTaken visitData.notes) = customer.serviceHistory := by
    rw [List.map_map]
    conv_rhs => rw [← List.map_id customer.serviceHistory]
    apply List.map_congr_left
    intro visit hvisit
    exact visit_round_trip rt visit (hvisits visit hvisit) (hwv visit hvisit)
  obtain ⟨id, name, phoneNumber, preferredStyles, serviceHistory, notes⟩ := customer
  simp only [customerOfData, Customer.toData, Customer.new, hhist,
    jsonRoundTrip_of_finite _ hf1, jsonRoundTrip_of_finite _ hf2,
    jsonRoundTrip_of_finite _ hf3, jsonRoundTrip_of_finite _ hf4,
    withDefault_of_ne_undefined _ _ hstyles, withDefault_of_ne_undefined _ _ hnotes]

/-- A store of constructed, writable customers written by `saveCustomers` and read by
`loadCustomers` is the same store. -/
theorem load_save_of_constructed (rt : JsRuntime) (this : CustomerService)
    (h : this.constructed) (hw : this.writable rt = true) :
    (loadCustomers rt (this.saveCustomers rt)).1 = this := by
  cases this with
  | mk customers =>
    simp only [CustomerService.writable, List.all_eq_true] at hw
    simp only [saveCustomers, loadCustomers, List.map_map]
    congr 1
    conv_rhs => rw [← List.map_id customers]
    apply List.map_congr_left
    intro customer hcustomer
    exact customer_round_trip rt customer (h customer hcustomer) (hw customer hcustomer)

/-- Whatever the file holds, `loadCustomers` builds constructed customers. -/
theorem loadCustomers_constructed (rt : JsRuntime) (file : DataFile) :
    (loadCustomers rt file).1.constructed := by
  have h1 : (JsVal.arr []) ≠ JsVal.undefined := by decide
  have h2 : (JsVal.str "") ≠ JsVal.undefined := by decide
  cases file with
  | missing => intro c hc; simp [loadCustomers] at hc
  | unreadable => intro c hc; simp [loadCustomers] at hc
  | records customersData =>
    intro c hc
    simp only [loadCustomers, List.mem_map] at hc
    obtain ⟨customerData, _, rfl⟩ := hc
    unfold customerOfData
    cases hhist : customerData.serviceHistory with
    | none =>
      exact ⟨withDefault_ne_undefined _ _ h1, withDefault_ne_undefined _ _ h2,
        by simp [Customer.new]⟩
    | some serviceHistory =>
      refine ⟨withDefault_ne_undefined _ _ h1, withDefault_ne_undefined _ _ h2, ?_⟩
      intro visit hvisit
      simp only [List.mem_map] at hvisit
      obtain ⟨visitData, _, rfl⟩ := hvisit
      exact ⟨withDefault_ne_undefined _ _ h1, withDefault_ne_undefined _ _ h2⟩

/-- Every mutating call keeps the customers constructed. -/
theorem opApply_constructed (this : CustomerService) (op : Op) (h : this.constructed) :
    (op.apply this).constructed := by
  have h1 : (JsVal.arr []) ≠ JsVal.undefined := by decide
  have h2 : (JsVal.str "") ≠ JsVal.undefined := by decide
  cases op with
  | addCustomer now name phoneNumber preferredStyles notes =>
    intro c hc
    simp only [Op.apply, addCustomer, List.mem_append, List.mem_singleton] at hc
    rcases hc with hc | rfl
    · exact h c hc
    · exact ⟨withDefault_ne_undefined _ _ h1, withDefault_ne_undefined _ _ h2,
        by simp [Customer.new]⟩
  | updateCustomer id updatedInfo =>
    cases hget : this.getCustomerById id with
    | none =>
      have hrun := updateCustomer_absent this id updatedInfo hget
      have hafter : Op.apply this (.updateCustomer id updatedInfo) = this := by
        simp [Op.apply, hrun]
      rw [hafter]; exact h
    | some c =>
      obtain ⟨pre, post, hsplit, hc, hpre⟩ := getCustomerById_split this id c hget
      have hthis : this = ⟨pre ++ c :: post⟩ := by
        cases this; simp_all
      subst hthis
      have hrun := updateCustomer_at_split pre post c id updatedInfo hpre hc
      have hcc : c.constructed := h c (by simp)
      intro x hx
      simp only [Op.apply, hrun, List.mem_append, List.mem_cons] at hx
      rcases hx with hx | rfl | hx
      · exact h x (by simp [hx])
      · rw [assignFields_eq]
        refine ⟨?_, ?_, hcc.2.2⟩
        · by_cases ht : updatedInfo.preferredStyles.truthy = true
          · simpa [ht] using truthy_ne_undefined _ ht
          · simpa [ht] using hcc.1
        · by_cases ht : updatedInfo.notes.truthy = true
          · simpa [ht] using truthy_ne_undefined _ ht
          · simpa [ht] using hcc.2.1
      · exact h x (by simp [hx])
  | addServiceVisit now id servicesTaken notes =>
    cases hget : this.getCustomerById id with
    | none =>
      have hafter : Op.apply this (.addServiceVisit now id servicesTaken notes) = this := by
        simp [Op.apply, addServiceVisit, hget]
      rw [hafter]; exact h
    | some c =>
      obtain ⟨pre, post, hsplit, hc, hpre⟩ := getCustomerById_split this id c hget
      have hthis : this = ⟨pre ++ c :: post⟩ := by
        cases this; simp_all
      subst hthis
      have hrun := addServiceVisit_at_split pre post c now id servicesTaken notes hpre hc
      have hcc : c.constructed := h c (by simp)
      intro x hx
      simp only [Op.apply, hrun, List.mem_append, List.mem_cons] at hx
      rcases hx with hx | rfl | hx
      · exact h x (by simp [hx])
      · refine ⟨hcc.1, hcc.2.1, ?_⟩
        intro visit hvisit
        simp only [Customer.addServiceVisit, List.mem_append, List.mem_singleton] at hvisit
        rcases hvisit with hvisit | rfl
        · exact hcc.2.2 visit hvisit
        · exact ⟨withDefault_ne_undefined _ _ h1, withDefault_ne_undefined _ _ h2⟩
      · exact h x (by simp [hx])
  | deleteCustomer d =>
    have hafter : (Op.apply this (.deleteCustomer d)).customers
        = this.customers.filter (fun c => c.id != d) := by
      simp only [Op.apply, deleteCustomer]
      split <;> rfl
    intro c hc
    rw [hafter] at hc
    exact h c (List.mem_filter.mp hc).1

/-- Every store the service can hold, built by `loadCustomers` from any file and changed
by any sequence of calls, has constructed customers. -/
theorem runOps_constructed (this : CustomerService) (ops : List Op) (h : this.constructed) :
    (runOps this ops).constructed := by
  induction ops generalizing this with
  | nil => exact h
  | cons op ops ih => exact ih (op.apply this) (opApply_constructed this op h)

/-- C14, as stated, fails on lists the service can hold.  A data file with a visit
whose date is the string "not a date" is loaded with that visit dated Invalid Date;
`saveCustomers` writes the date as `null` and `loadCustomers` rebuilds it as the time
value 0, so the reloaded list differs from the held one.  A customer whose name was
updated to `Infinity` is written with the name `null` and reloaded with the name
`null`. -/
theorem load_save_changes_invalid_date :
    (loadCustomers sampleRuntime unparseableDateFile).1.customers.map
        (fun c => c.serviceHistory.map (fun visit => visit.date)) = [[.invalid]]
      ∧ (loadCustomers sampleRuntime
          ((loadCustomers sampleRuntime unparseableDateFile).1.saveCustomers
            sampleRuntime)).1.customers.map
          (fun c => c.serviceHistory.map (fun visit => visit.date)) = [[.valid 0]]
      ∧ (loadCustomers sampleRuntime
          ((loadCustomers sampleRuntime unparseableDateFile).1.saveCustomers sampleRuntime)).1
          ≠ (loadCustomers sampleRuntime unparseableDateFile).1
      ∧ (runOps (loadCustomers sampleRuntime .missing).1 infiniteName).customers.map
          (fun c => c.name) = [.infinity false]
      ∧ (loadCustomers sampleRuntime
          ((runOps (loadCustomers sampleRuntime .missing).1 infiniteName).saveCustomers
            sampleRuntime)).1.customers.map (fun c => c.name) = [.null] := by
  decide

/-- C14, amended: for every customer list the file-backed service holds (the list built
by `loadCustomers` from any data file, after any sequence of calls) in which no field
is `NaN` or an infinity and every visit date is a valid `Date` whose ISO string the
runtime parses back to the same time value, writing the list as `saveCustomers` does
and rebuilding it as `loadCustomers` does yields the same list: same length, customers
equal field for field, visits equal in order, servicesTaken, notes and date. -/
theorem load_save_round_trip (rt : JsRuntime) (file : DataFile) (ops : List Op)
    (hw : (runOps (loadCustomers rt file).1 ops).writable rt = true) :
    (loadCustomers rt ((runOps (loadCustomers rt file).1 ops).saveCustomers rt)).1
      = runOps (loadCustomers rt file).1 ops :=
  load_save_of_constructed rt _
    (runOps_constructed _ ops (loadCustomers_constructed rt file)) hw

/-- C14 amended, on a concrete run: the store built from a missing data file by adding
Jane Doe and one visit at time 9000, written with the date as
"1970-01-01T00:00:09.000Z" and read back. -/
theorem load_save_round_trip_witness :
    (loadCustomers sampleRuntime
        ((runOps (loadCustomers sampleRuntime .missing).1 janeWithVisit).saveCustomers
          sampleRuntime)).1
      = runOps (loadCustomers sampleRuntime .missing).1 janeWithVisit :=
  load_save_round_trip sampleRuntime .missing janeWithVisit (by decide)

/-! ## Backend selection -/

/-- The start of `src/server.js` selects the relational service exactly when
`initializeDatabase` yields a client, and the file-backed one otherwise. -/
theorem Server.selectService_policy (env : Environment) :
    Server.selectService env =
      (match initializeDatabase env with
       | some sqlClient => .relational (some sqlClient)
       | none => .fileBacked) := by
  unfold Server.selectService
  simp only [dbModule, Imported.destructure, Imported.call]
  cases initializeDatabase env <;> rfl

/-- C16: in `src/functions/api.js` the name `initializeDatabase` is bound to the exports
object of `src/db/index.js`, not to the function.  With `DATABASE_URL` set and the schema
accepted, initialisation would yield a client and `src/server.js` selects the relational
service, but the call in api.js raises a TypeError and the `catch` branch selects the
file-backed service; this happens for every environment. -/
theorem Api.selectService_always_fileBacked :
    initializeDatabase databaseUp = some { url := "postgres://salon" }
      ∧ Server.selectService databaseUp = .relational (some { url := "postgres://salon" })
      ∧ Api.selectService databaseUp = .fileBacked
      ∧ ∀ env, Api.selectService env = .fileBacked := by
  refine ⟨by decide, by decide, by decide, ?_⟩
  intro env
  rfl

/-! ## The relational service and a failing client -/

/-- A `try` whose `catch` block returns a value does not raise. -/
theorem tryCatchJs_returns {α : Type} (body : Except String α) (sentinel : α) :
    ∃ v, tryCatchJs body (fun _ => .ok sentinel) = .ok v := by
  cases body with
  | ok value => exact ⟨value, rfl⟩
  | error e => exact ⟨sentinel, rfl⟩

theorem Relational.getCustomerById_returns (q : Lookup) :
    ∃ v, Relational.getCustomerById q = .ok v :=
  tryCatchJs_returns _ _

/-- When a query of the lookup throws, `getCustomerById` returns null. -/
theorem Relational.getCustomerById_of_fails (q : Lookup) (h : q.fails) :
    Relational.getCustomerById q = .ok none := by
  rcases h with h | ⟨⟨row, rest, hrows⟩, hvisits⟩
  · simp [Relational.getCustomerById, h, QueryResult.await, tryCatchJs]
  · simp [Relational.getCustomerById, hrows, hvisits, QueryResult.await, tryCatchJs]

/-- One rejected callback rejects the awaited `Promise.all` of `getAllCustomers`. -/
theorem promiseAll_rejects {ρ β : Type} (callback : ρ → QueryResult VisitRow → Except String β)
    (hcallback : ∀ row, ∃ e, callback row .throws = .error e)
    (rows : List ρ) (outcomes : Nat → QueryResult VisitRow) (i : Nat)
    (hi : i < rows.length) (hthrows : outcomes i = .throws) :
    ∃ e, promiseAll (mapAwaiting callback rows outcomes) = .error e := by
  induction rows generalizing outcomes i with
  | nil => simp at hi
  | cons row rows ih =>
    cases i with
    | zero =>
      obtain ⟨e, he⟩ := hcallback row
      refine ⟨e, ?_⟩
      simp [mapAwaiting, promiseAll, hthrows, he]
    | succ i =>
      obtain ⟨e, he⟩ := ih (fun j => outcomes (j + 1)) i (by simpa using hi) hthrows
      cases hrow : callback row (outcomes 0) with
      | error e0 => exact ⟨e0, by simp [mapAwaiting, promiseAll, hrow]⟩
      | ok value => exact ⟨e, by simp [mapAwaiting, promiseAll, hrow, he]⟩

/-- The awaited `Promise.all` of `searchCustomersByName` never rejects: it holds, row by
row, what `getCustomerById` returned. -/
theorem promiseAll_lookups (rows : List CustomerRow) (lookups : Nat → Lookup) :
    promiseAll (mapAwaiting (fun (_ : CustomerRow) q => Relational.getCustomerById q)
        rows lookups)
      = .ok (mapAwaiting
          (fun (_ : CustomerRow) q =>
            match Relational.getCustomerById q with
            | .ok found => found
            | .error _ => none)
          rows lookups) := by
  induction rows generalizing lookups with
  | nil => rfl
  | cons row rows ih =>
    obtain ⟨v, hv⟩ := Relational.getCustomerById_returns (lookups 0)
    simp [mapAwaiting, promiseAll, hv, ih]

/-- C15, as stated, fails for `searchCustomersByName` when a query of one of its
`getCustomerById` calls throws.  The search matched the rows of Jane Doe and Bob Smith;
the lookup of Jane Doe succeeds and the customer query of the second lookup throws.
`getCustomerById` turns that failure into null, the search filters the null out and
returns the list with Jane Doe alone, not the empty list. -/
theorem Relational.searchCustomersByName_partial_on_failed_lookup :
    (secondLookupThrows 1).fails
      ∧ Relational.searchCustomersByName (.rows [janeRow, bobRow]) secondLookupThrows
          = .ok [janeDoe]
      ∧ Relational.searchCustomersByName (.rows [janeRow, bobRow]) secondLookupThrows
          ≠ .ok [] := by
  have h : Relational.searchCustomersByName (.rows [janeRow, bobRow]) secondLookupThrows
      = .ok [janeDoe] := rfl
  refine ⟨Or.inl rfl, h, ?_⟩
  rw [h]
  simp

/-- C15, amended: whatever the queries of the sql client do (a missing client makes all
of them throw), every operation of the relational service completes without an
exception.  `getAllCustomers` returns `[]` when its row query or any of its visit
queries throws; `getCustomerById`, `getCustomerByPhone`, `addCustomer`, `updateCustomer`
and `addServiceVisit` return null and `deleteCustomer` returns false when a query they
depend on throws; `searchCustomersByName` returns `[]` when its row query throws, and
when a query of one of its per-customer lookups throws it returns the customers whose
lookups succeeded, leaving that customer out. -/
theorem Relational.never_raises (customersResult : QueryResult CustomerRow)
    (serviceVisits : Nat → QueryResult VisitRow) (lookups : Nat → Lookup)
    (q current updated : Lookup) (insert update delete : QueryResult Unit)
    (visitResult : QueryResult VisitRow) :
    ((∃ v, Relational.getAllCustomers customersResult serviceVisits = .ok v)
        ∧ (∃ v, Relational.getCustomerById q = .ok v)
        ∧ (∃ v, Relational.getCustomerByPhone customersResult q = .ok v)
        ∧ (∃ v, Relational.searchCustomersByName customersResult lookups = .ok v)
        ∧ (∃ v, Relational.addCustomer insert q = .ok v)
        ∧ (∃ v, Relational.updateCustomer current update updated = .ok v)
        ∧ (∃ v, Relational.addServiceVisit q visitResult = .ok v)
        ∧ (∃ v, Relational.deleteCustomer q delete = .ok v))
      ∧ (customersResult = .throws →
          Relational.getAllCustomers customersResult serviceVisits = .ok []
            ∧ Relational.searchCustomersByName customersResult lookups = .ok []
            ∧ Relational.getCustomerByPhone customersResult q = .ok none)
      ∧ (∀ rows i, customersResult = .rows rows → i < rows.length →
          serviceVisits i = .throws →
          Relational.getAllCustomers customersResult serviceVisits = .ok [])
      ∧ (q.fails →
          Relational.getCustomerById q = .ok none
            ∧ Relational.getCustomerByPhone customersResult q = .ok none
            ∧ Relational.addCustomer insert q = .ok none
            ∧ Relational.addServiceVisit q visitResult = .ok none
            ∧ Relational.deleteCustomer q delete = .ok false)
      ∧ (insert = .throws → Relational.addCustomer insert q = .ok none)
      ∧ (current.fails → Relational.updateCustomer current update updated = .ok none)
      ∧ (update = .throws → Relational.updateCustomer current update updated = .ok none)
      ∧ (updated.fails → Relational.updateCustomer current update updated = .ok none)
      ∧ (visitResult = .throws → Relational.addServiceVisit q visitResult = .ok none)
      ∧ (delete = .throws → Relational.deleteCustomer q delete = .ok false)
      ∧ (∀ rows, customersResult = .rows rows →
          Relational.searchCustomersByName customersResult lookups
            = .ok ((mapAwaiting
                (fun (_ : CustomerRow) q =>
                  match Relational.getCustomerById q with
                  | .ok found => found
                  | .error _ => none)
                rows lookups).filterMap (fun c => c))) := by
  refine ⟨⟨tryCatchJs_returns _ _, tryCatchJs_returns _ _, tryCatchJs_returns _ _,
    tryCatchJs_returns _ _, tryCatchJs_returns _ _, tryCatchJs_returns _ _,
    tryCatchJs_returns _ _, tryCatchJs_returns _ _⟩, ?_, ?_, ?_, ?_, ?_, ?_, ?_, ?_, ?_, ?_⟩
  · intro h
    subst h
    exact ⟨rfl, rfl, rfl⟩
  · intro rows i hrows hi hthrows
    subst hrows
    obtain ⟨e, he⟩ := promiseAll_rejects Relational.customerWithHistory
      (fun _ => ⟨_, rfl⟩) rows serviceVisits i hi hthrows
    simp only [Relational.getAllCustomers, QueryResult.await]
    rw [he]
    rfl
  · intro hq
    have hget := Relational.getCustomerById_of_fails q hq
    refine ⟨hget, ?_, ?_, ?_, ?_⟩
    · cases customersResult with
      | throws => rfl
      | rows result =>
        cases result with
        | nil => rfl
        | cons row rest =>
          simp [Relational.getCustomerByPhone, QueryResult.await, hget, tryCatchJs]
    · cases insert with
      | throws => rfl
      | rows result => simp [Relational.addCustomer, QueryResult.await, hget, tryCatchJs]
    · simp [Relational.addServiceVisit, hget, tryCatchJs]
    · simp [Relational.deleteCustomer, hget, tryCatchJs]
  · intro h
    subst h
    rfl
  · intro hc
    simp [Relational.updateCustomer, Relational.getCustomerById_of_fails current hc,
      tryCatchJs]
  · intro h
    subst h
    obtain ⟨v, hv⟩ := Relational.getCustomerById_returns current
    cases v <;> simp [Relational.updateCustomer, hv, QueryResult.await, tryCatchJs]
  · intro hu
    have hget := Relational.getCustomerById_of_fails updated hu
    obtain ⟨v, hv⟩ := Relational.getCustomerById_returns current
    cases update <;> cases v <;>
      simp [Relational.updateCustomer, hv, hget, QueryResult.await, tryCatchJs]
  · intro h
    subst h
    obtain ⟨v, hv⟩ := Relational.getCustomerById_returns q
    cases v <;> simp [Relational.addServiceVisit, hv, QueryResult.await, tryCatchJs]
  · intro h
    subst h
    obtain ⟨v, hv⟩ := Relational.getCustomerById_returns q
    cases v <;> simp [Relational.deleteCustomer, hv, QueryResult.await, tryCatchJs]
  · intro rows hrows
    subst hrows
    simp only [Relational.searchCustomersByName, QueryResult.await, promiseAll_lookups]
    rfl

/-- C15 amended, on concrete outcomes: a listing of two rows whose second visits query
throws returns `[]`, and with a missing client the lookups, `addCustomer`,
`addServiceVisit` and `deleteCustomer` return their sentinels. -/
theorem Relational.never_raises_witness :
    Relational.getAllCustomers (.rows [janeRow, bobRow]) laterVisitsThrow = .ok []
      ∧ (Relational.getCustomerById missingClient = .ok none
          ∧ Relational.getCustomerByPhone (.rows [janeRow, bobRow]) missingClient = .ok none
          ∧ Relational.addCustomer .throws missingClient = .ok none
          ∧ Relational.addServiceVisit missingClient .throws = .ok none
          ∧ Relational.deleteCustomer missingClient .throws = .ok false) :=
  ⟨(Relational.never_raises (.rows [janeRow, bobRow]) laterVisitsThrow secondLookupThrows
      missingClient missingClient missingClient .throws .throws .throws .throws).2.2.1
      [janeRow, bobRow] 1 rfl (by decide) rfl,
   (Relational.never_raises (.rows [janeRow, bobRow]) laterVisitsThrow secondLookupThrows
      missingClient missingClient missingClient .throws .throws .throws .throws).2.2.2.1
      (Or.inl rfl)⟩

end SalonApp
